import Mathlib

/-!
# Ganymede: YouTube upload service

A shallow embedding of `internal/youtube/youtube.go` (playlist routing, category
matching and the upload state machine) together with the properties checked
against the natural-language specification.

Go strings are modelled by Lean `String`s (sequences of Unicode scalar values,
i.e. valid UTF-8); the operations of Go's `strings` package that the service
calls are defined on the underlying character lists.
-/

namespace Ganymede

/-! ## The parts of the Go standard library the service calls -/

/-- The rune-level lower-casing table of Go's `unicode` package, which
`strings.ToLower` applies rune by rune. The table itself is not part of the
repository, so it is a parameter; what is recorded about it is that it is the
usual mapping on ASCII and that only `*` is mapped to `*`. -/
structure CaseTable where
  toLower : Char → Char
  ascii : ∀ c : Char, c.val < 128 → toLower c = c.toLower
  star : ∀ c : Char, toLower c = '*' → c = '*'

/-- The ASCII-only lower-casing table (every non-ASCII rune is left alone). -/
def asciiTable : CaseTable where
  toLower := Char.toLower
  ascii := fun _ _ => rfl
  star := by
    intro c h
    unfold Char.toLower at h
    simp only at h
    by_cases hc : c.toNat ≥ 65 ∧ c.toNat ≤ 90
    · rw [if_pos hc] at h
      exfalso
      obtain ⟨h1, h2⟩ := hc
      generalize c.toNat = n at h h1 h2
      interval_cases n <;> revert h <;> decide
    · rw [if_neg hc] at h
      exact h

/-- Go `strings.ToLower`: every rune is replaced by its lower-case form. -/
def strings.ToLower (u : CaseTable) (s : String) : String :=
  ⟨s.data.map u.toLower⟩

/-- Go `strings.Contains(s, sep)` for a one-rune `sep`, which is how the service
calls it (`"*"`). -/
def strings.Contains (s : String) (sep : Char) : Bool :=
  s.data.contains sep

/-- The pieces of a rune list between the occurrences of `sep`; `n` occurrences
give `n + 1` pieces, empty ones included. -/
def strings.splitRunes (sep : Char) : List Char → List (List Char)
  | [] => [[]]
  | c :: cs =>
    if c = sep then [] :: strings.splitRunes sep cs
    else
      match strings.splitRunes sep cs with
      | [] => [[c]]
      | p :: ps => (c :: p) :: ps

/-- Go `strings.Split(s, sep)` for a one-rune `sep`, which is how the service
calls it (`"*"`). -/
def strings.Split (s : String) (sep : Char) : List String :=
  (strings.splitRunes sep s.data).map String.mk

/-- Go `strings.HasPrefix(s, pre)`. -/
def strings.HasPrefix (s pre : String) : Bool :=
  pre.data.isPrefixOf s.data

/-- Go `strings.HasSuffix(s, suf)`. -/
def strings.HasSuffix (s suf : String) : Bool :=
  suf.data.isSuffixOf s.data

/-! ## Data model (the ent entities, with their edges as fields) -/

/-- The decimal numeral of a natural number, without padding. -/
def decimal (n : Nat) : String := toString n

/-- The English name of a month, as `time.Month.String` gives it for 1 to 12. -/
def monthName : Nat → String
  | 1 => "January" | 2 => "February" | 3 => "March" | 4 => "April"
  | 5 => "May" | 6 => "June" | 7 => "July" | 8 => "August"
  | 9 => "September" | 10 => "October" | 11 => "November" | 12 => "December"
  | n => "%!Month(" ++ decimal n ++ ")"

/-- The year as Go's `time` package renders the layout element `2006`: the
decimal numeral zero-padded to four digits, after a minus sign for a negative
year. -/
def yearText (year : Int) : String :=
  (if year < 0 then "-" else "") ++
    (⟨List.replicate (4 - (decimal year.natAbs).length) '0'⟩ ++ decimal year.natAbs)

/-- The long date in the words of the specification: month name, day, comma,
four-digit year. -/
def longDate (year : Int) (month day : Nat) : String :=
  monthName month ++ " " ++ decimal day ++ ", " ++ yearText year

/-- A Go `time.Time`, seen through what the service observes of it: its instant,
its calendar date and its rendering under a layout. `Time.Format` is library
code and stays a parameter; what is recorded about it is how it renders the
layout `"January 2, 2006"` (long month name, day without padding, comma, year
zero-padded to four digits). -/
structure Time where
  unix : Int
  Year : Int
  Month : Nat
  Day : Nat
  Format : String → String
  long : Format "January 2, 2006" = longDate Year Month Day

/-- A chapter of a video (`ent.Chapter`); `Type_` is the Go field `Type`. -/
structure Chapter where
  Start : Int
  Type_ : String
  Title : String

/-- The channel owning a video (`ent.Channel`). -/
structure Channel where
  DisplayName : String

/-- A playlist mapping (`ent.YoutubePlaylistMapping`). -/
structure YoutubePlaylistMapping where
  GameCategory : String
  PlaylistID : String
  PlaylistName : String
  Priority : Int
deriving DecidableEq

/-- The per-channel upload configuration (`ent.YoutubeConfig`);
`PlaylistMappings` is the edge loaded by `WithPlaylistMappings()`, in the order
the store returns it. -/
structure YoutubeConfig where
  UploadEnabled : Bool
  DefaultPrivacy : String
  DefaultCategoryID : String
  DescriptionTemplate : String
  TitleTemplate : String
  Tags : List String
  AddChapters : Bool
  NotifySubscribers : Bool
  PlaylistMappings : List YoutubePlaylistMapping

/-- An archived video (`ent.Vod`) with its channel and chapters edges. -/
structure Vod where
  Title : String
  StreamedAt : Time
  Duration : Int
  VideoPath : String
  Channel : Channel
  Chapters : List Chapter

/-! ## Category matching and playlist routing -/

/-- The method `matchCategory`: checks if a category matches a pattern
(supports wildcards). -/
def matchCategory (u : CaseTable) (pattern category : String) : Bool :=
  let pattern := strings.ToLower u pattern
  let category := strings.ToLower u category
  if strings.Contains pattern '*' then
    match strings.Split pattern '*' with
    | [p0, p1] =>
      if p0 = "" then strings.HasSuffix category p1
      else if p1 = "" then strings.HasPrefix category p0
      else strings.HasPrefix category p0 && strings.HasSuffix category p1
    | _ => pattern == category
  else pattern == category

/-- One iteration of the loop of `getCategoriesFromChapters`; the state is the
`categoryMap` (a missing key reads as `false`) and the `categories` slice. -/
def getCategoriesFromChapters.step (st : (String → Bool) × List String)
    (chapter : Chapter) : (String → Bool) × List String :=
  if chapter.Type_ != "" && !st.1 chapter.Type_ then
    (fun k => if k = chapter.Type_ then true else st.1 k, st.2 ++ [chapter.Type_])
  else st

/-- The method `getCategoriesFromChapters`: extracts unique categories from
chapters. -/
def getCategoriesFromChapters (chapters : List Chapter) : List String :=
  (chapters.foldl getCategoriesFromChapters.step (fun _ => false, [])).2

/-- The inner loop of `matchPlaylists` for one mapping: scan the categories,
append the playlist id at the first match and `break`. -/
def matchPlaylists.scan (u : CaseTable) (mapping : YoutubePlaylistMapping)
    (playlistIDs : List String) : List String → List String
  | [] => playlistIDs
  | category :: rest =>
    if matchCategory u mapping.GameCategory category then
      playlistIDs ++ [mapping.PlaylistID]
    else matchPlaylists.scan u mapping playlistIDs rest

/-- The method `matchPlaylists`: finds matching playlists for a VOD based on
game/category. -/
def matchPlaylists (u : CaseTable) (config : YoutubeConfig) (vod : Vod) : List String :=
  let categories := getCategoriesFromChapters vod.Chapters
  config.PlaylistMappings.foldl
    (fun playlistIDs mapping => matchPlaylists.scan u mapping playlistIDs categories) []

/-- Whether a mapping matches at least one of the categories. -/
def mappingMatches (u : CaseTable) (categories : List String)
    (m : YoutubePlaylistMapping) : Bool :=
  categories.any (fun category => matchCategory u m.GameCategory category)

/-! ## Formatting -/

/-- Go `strings.ReplaceAll` on rune lists for a non-empty `old` (the service
only passes literal placeholder tokens): non-overlapping occurrences are
replaced from left to right. `skip` counts the runes of a matched occurrence
still to be dropped. -/
def strings.replaceRunes (old new : List Char) : Nat → List Char → List Char
  | _, [] => []
  | skip + 1, _ :: cs => strings.replaceRunes old new skip cs
  | 0, c :: cs =>
    if old.isPrefixOf (c :: cs) then new ++ strings.replaceRunes old new (old.length - 1) cs
    else c :: strings.replaceRunes old new 0 cs

/-- Go `strings.ReplaceAll(s, old, new)` for a non-empty `old`. -/
def strings.ReplaceAll (s old new : String) : String :=
  ⟨strings.replaceRunes old.data new.data 0 s.data⟩

/-- The verb `%d` of Go's `fmt` on an integer. -/
def fmt.d (n : Int) : String := toString n

/-- The verb `%02d` of Go's `fmt`: zero-padded to width two, the sign counting
towards the width. -/
def fmt.d02 (n : Int) : String :=
  if 0 ≤ n ∧ n < 10 then "0" ++ toString n else toString n

/-- The function `formatDuration`: formats duration in seconds to
human-readable format. Go's `/` and `%` truncate towards zero. -/
def formatDuration (seconds : Int) : String :=
  let hours := seconds.tdiv 3600
  let minutes := (seconds.tmod 3600).tdiv 60
  let secs := seconds.tmod 60
  if hours > 0 then
    fmt.d hours ++ "h " ++ fmt.d minutes ++ "m " ++ fmt.d secs ++ "s"
  else fmt.d minutes ++ "m " ++ fmt.d secs ++ "s"

/-- The function `formatTimestamp`: formats seconds to YouTube timestamp format
(HH:MM:SS or MM:SS). -/
def formatTimestamp (seconds : Int) : String :=
  let hours := seconds.tdiv 3600
  let minutes := (seconds.tmod 3600).tdiv 60
  let secs := seconds.tmod 60
  if hours > 0 then
    fmt.d hours ++ ":" ++ fmt.d02 minutes ++ ":" ++ fmt.d02 secs
  else fmt.d minutes ++ ":" ++ fmt.d02 secs

/-- The method `formatTitle`: formats the video title using the template. -/
def formatTitle (config : YoutubeConfig) (vod : Vod) : String :=
  if config.TitleTemplate = "" then vod.Title
  else
    let title := config.TitleTemplate
    let title := strings.ReplaceAll title "\x7btitle\x7d" vod.Title
    let title := strings.ReplaceAll title "\x7bchannel\x7d" vod.Channel.DisplayName
    let title := strings.ReplaceAll title "\x7bdate\x7d" (vod.StreamedAt.Format "2006-01-02")
    title

/-- The method `formatDescription`: formats the video description using the
template. -/
def formatDescription (config : YoutubeConfig) (vod : Vod) : String :=
  if config.DescriptionTemplate = "" then
    "Streamed by " ++ vod.Channel.DisplayName ++ " on " ++
      vod.StreamedAt.Format "January 2, 2006"
  else
    let desc := config.DescriptionTemplate
    let desc := strings.ReplaceAll desc "\x7btitle\x7d" vod.Title
    let desc := strings.ReplaceAll desc "\x7bchannel\x7d" vod.Channel.DisplayName
    let desc := strings.ReplaceAll desc "\x7bdate\x7d" (vod.StreamedAt.Format "January 2, 2006")
    let desc := strings.ReplaceAll desc "\x7bduration\x7d" (formatDuration vod.Duration)
    desc

/-- The line `buildChapterDescription` writes for one chapter. -/
def buildChapterDescription.line (chapter : Chapter) : String :=
  let timestamp := formatTimestamp chapter.Start
  let title := if chapter.Title = "" then chapter.Type_ else chapter.Title
  timestamp ++ " - " ++ title ++ "\n"

/-- The method `buildChapterDescription`: creates a chapter description for
YouTube. -/
def buildChapterDescription (chapters : List Chapter) : String :=
  if chapters.length = 0 then ""
  else chapters.foldl (fun sb chapter => sb ++ buildChapterDescription.line chapter)
    "Chapters:\n"

/-! ## The upload state machine -/

/-- The value a Go `int` (64 bits) holds after an arithmetic operation whose
mathematical result is `x`: the representative of `x` modulo `2 ^ 64` in the range
from `-2 ^ 63` to `2 ^ 63 - 1`. -/
def wrapInt64 (x : Int) : Int :=
  (x + 2 ^ 63) % 2 ^ 64 - 2 ^ 63

/-- An upload record (`ent.YoutubeUpload`). Optional fields hold Go's zero value
when unset. `RetryCount` is a Go `int` (64 bits); additions on it go through
`wrapInt64`. -/
structure YoutubeUpload where
  YoutubeVideoID : String
  YoutubeURL : String
  Status : String
  ErrorMessage : String
  RetryCount : Int
  UploadedAt : Option Time
  PlaylistIds : List String
  UpdatedAt : Time
  CreatedAt : Time

/-- The stored OAuth2 credential (`ent.YoutubeCredential`). -/
structure YoutubeCredential where
  AccessToken : String
  RefreshToken : String
  TokenType : String
  Expiry : Time
  UpdatedAt : Time

/-- An `oauth2.Token`. -/
structure Token where
  AccessToken : String
  RefreshToken : String
  TokenType : String
  Expiry : Time

/-- The part of the database the upload writes: the upload record of each video
(keyed by the video's UUID) and the credential row. -/
structure Store where
  uploads : String → Option YoutubeUpload
  credential : Option YoutubeCredential

/-- Replace (or insert) the upload record of one video. -/
def Store.setUpload (σ : Store) (vodUUID : String) (r : YoutubeUpload) : Store :=
  { σ with uploads := fun k => if k = vodUUID then some r else σ.uploads k }

/-- A `youtube.VideoSnippet`. -/
structure VideoSnippet where
  Title : String
  Description : String
  CategoryId : String
  Tags : List String

/-- A `youtube.Video` as the service fills it; `PrivacyStatus` is `none` when the
`Status` part is left out. -/
structure Video where
  Id : String
  Snippet : VideoSnippet
  PrivacyStatus : Option String

/-- What the service asks of its collaborators outside the database, in the
order asked: entering `getYouTubeClient`, the token refresh, opening the video
file, and the three remote calls. -/
inductive Call where
  | getYouTubeClient
  | refreshToken
  | openFile (path : String)
  | videosInsert (video : Video) (media : String) (notifySubscribers : Option Bool)
  | videosUpdate (video : Video)
  | playlistItemsInsert (videoID playlistID : String)

/-- Whether a call goes to the remote video host. -/
def Call.isRemote : Call → Bool
  | .videosInsert _ _ _ => true
  | .videosUpdate _ => true
  | .playlistItemsInsert _ _ => true
  | .refreshToken => true
  | _ => false

/-- A line written to the log: level, message and the fields attached at the
call site (the context fields `service` and `vod_id`, the same on every line, are
left out). -/
structure LogLine where
  level : String
  msg : String
  fields : List (String × String)
deriving DecidableEq

/-- The answers of the collaborators during one run of `UploadVideo`: an
`Option String` is the text of the error a step returns (`none` for success), an
`Except` carries the value on success. A database write that returns an error
leaves the row as it was. `playlistItemsInsert i` answers the add number `i` of
the run; `now` is the reading of the clock, the same throughout the run. -/
structure Env where
  now : Time
  uuidParse : String → Except String String
  filepathJoin : String → String
  queryVod : String → Except String Vod
  queryConfig : Vod → Except String YoutubeConfig
  createUpload : Option String
  saveUploading : Option String
  saveFailed : Option String
  saveCompleted : Option String
  queryCredential : Option String
  refreshToken : Except String Token
  saveCredential : Option String
  newService : Option String
  openFile : Option String
  videosInsert : Except String String
  videosUpdate : Option String
  playlistItemsInsert : Nat → Option String

/-- The result of a run: the Go `error` (`none` for `nil`), the database after
the run, the calls made and the lines logged, in order. -/
structure Outcome where
  err : Option String
  store : Store
  calls : List Call
  logs : List LogLine

/-- The outcome of a continuation, placed after the calls and log lines that
came before it. -/
def Outcome.after (calls : List Call) (logs : List LogLine) (o : Outcome) : Outcome :=
  { o with calls := calls ++ o.calls, logs := logs ++ o.logs }

/-- The method `getYouTubeClient`: creates an authenticated YouTube API client.
The client is represented by the token it is built from. -/
def getYouTubeClient (env : Env) (σ : Store) : Except String Token × Store × List Call :=
  match env.queryCredential, σ.credential with
  | some e, _ => (.error ("no YouTube credentials found: " ++ e), σ, [])
  | none, none =>
    (.error "no YouTube credentials found: ent: youtube_credential not found", σ, [])
  | none, some creds =>
    let token : Token := ⟨creds.AccessToken, creds.RefreshToken, creds.TokenType, creds.Expiry⟩
    if creds.Expiry.unix < env.now.unix then
      match env.refreshToken with
      | .error e => (.error ("failed to refresh token: " ++ e), σ, [.refreshToken])
      | .ok newToken =>
        match env.saveCredential with
        | some e => (.error ("failed to save refreshed token: " ++ e), σ, [.refreshToken])
        | none =>
          let σ1 : Store := { σ with credential := some { creds with
            AccessToken := newToken.AccessToken, Expiry := newToken.Expiry,
            UpdatedAt := env.now } }
          match env.newService with
          | some e => (.error ("failed to create YouTube service: " ++ e), σ1, [.refreshToken])
          | none => (.ok token, σ1, [.refreshToken])
    else
      match env.newService with
      | some e => (.error ("failed to create YouTube service: " ++ e), σ, [])
      | none => (.ok token, σ, [])

/-- The playlist loop of `UploadVideo`: one add per playlist id, in order; the
error of an add is only logged. `i` is the number of adds made before. -/
def UploadVideo.addToPlaylists (env : Env) (videoID : String) :
    Nat → List String → List Call × List LogLine
  | _, [] => ([], [])
  | i, playlistID :: rest =>
    let line : LogLine :=
      match env.playlistItemsInsert i with
      | some e => ⟨"warn", "failed to add video to playlist",
          [("error", e), ("playlist_id", playlistID)]⟩
      | none => ⟨"info", "video added to playlist", [("playlist_id", playlistID)]⟩
    let tail := UploadVideo.addToPlaylists env videoID (i + 1) rest
    (Call.playlistItemsInsert videoID playlistID :: tail.1, line :: tail.2)

/-- The chapter step of `UploadVideo` (add chapters if enabled); the error of the
update is only logged. -/
def UploadVideo.addChapters (env : Env) (youtubeConfig : YoutubeConfig) (vod : Vod)
    (title description videoID : String) : List Call × List LogLine :=
  if youtubeConfig.AddChapters && decide (vod.Chapters.length > 0) then
    let chapters := buildChapterDescription vod.Chapters
    if chapters ≠ "" then
      let fullDescription := description ++ "\n\n" ++ chapters
      let call := Call.videosUpdate
        { Id := videoID,
          Snippet := ⟨title, fullDescription, youtubeConfig.DefaultCategoryID,
            youtubeConfig.Tags⟩,
          PrivacyStatus := none }
      match env.videosUpdate with
      | some e => ([call], [⟨"warn", "failed to add chapters", [("error", e)]⟩])
      | none => ([call], [⟨"info", "chapters added to video", []⟩])
    else ([], [])
  else ([], [])

/-- The part of `UploadVideo` after the upload call succeeded with
`responseId`: chapters, playlists and the final write. -/
def UploadVideo.finish (u : CaseTable) (env : Env) (σ : Store) (vodUUID : String)
    (vod : Vod) (youtubeConfig : YoutubeConfig) (uploadRecord : YoutubeUpload)
    (title description responseId : String) : Outcome :=
  let chapterStep := UploadVideo.addChapters env youtubeConfig vod title description responseId
  let playlistIDs := matchPlaylists u youtubeConfig vod
  let playlistStep := UploadVideo.addToPlaylists env responseId 0 playlistIDs
  let youtubeURL := "https://www.youtube.com/watch?v=" ++ responseId
  let calls := chapterStep.1 ++ playlistStep.1
  let logs : List LogLine :=
    ⟨"info", "video uploaded successfully", [("youtube_id", responseId)]⟩ ::
      (chapterStep.2 ++ playlistStep.2)
  match env.saveCompleted with
  | some e => ⟨some ("failed to update upload record: " ++ e), σ, calls, logs⟩
  | none =>
    ⟨none, σ.setUpload vodUUID { uploadRecord with
        YoutubeVideoID := responseId, YoutubeURL := youtubeURL, Status := "completed",
        UploadedAt := some env.now, PlaylistIds := playlistIDs, UpdatedAt := env.now },
      calls, logs ++ [⟨"info", "YouTube upload completed", [("url", youtubeURL)]⟩]⟩

/-- The part of `UploadVideo` after the client is acquired: metadata, file and
the upload call. `uploadRecord` is the record as returned by the write of
`uploading`. -/
def UploadVideo.transfer (u : CaseTable) (env : Env) (σ : Store) (vodUUID : String)
    (vod : Vod) (youtubeConfig : YoutubeConfig) (uploadRecord : YoutubeUpload) : Outcome :=
  let title := formatTitle youtubeConfig vod
  let description := formatDescription youtubeConfig vod
  let tags := youtubeConfig.Tags
  let video : Video :=
    { Id := "",
      Snippet := ⟨title, description, youtubeConfig.DefaultCategoryID, tags⟩,
      PrivacyStatus := some youtubeConfig.DefaultPrivacy }
  let videoPath := env.filepathJoin vod.VideoPath
  match env.openFile with
  | some e =>
    let σ1 := match env.saveFailed with
      | some _ => σ
      | none => σ.setUpload vodUUID { uploadRecord with
          Status := "failed", ErrorMessage := "failed to open video file: " ++ e,
          UpdatedAt := env.now }
    ⟨some ("failed to open video file: " ++ e), σ1, [Call.openFile videoPath], []⟩
  | none =>
    let notify : Option Bool := if !youtubeConfig.NotifySubscribers then some false else none
    let calls := [Call.openFile videoPath, Call.videosInsert video videoPath notify]
    let logs : List LogLine := [⟨"info", "uploading video to YouTube...", []⟩]
    match env.videosInsert with
    | .error e =>
      let retryCount := wrapInt64 (uploadRecord.RetryCount + 1)
      let σ1 := match env.saveFailed with
        | some _ => σ
        | none => σ.setUpload vodUUID { uploadRecord with
            Status := "failed", ErrorMessage := "upload failed: " ++ e,
            RetryCount := retryCount, UpdatedAt := env.now }
      ⟨some ("upload failed: " ++ e), σ1, calls, logs⟩
    | .ok responseId =>
      (UploadVideo.finish u env σ vodUUID vod youtubeConfig uploadRecord title description
        responseId).after calls logs

/-- The part of `UploadVideo` from "update status to uploading" on, for the
record `uploadRecord` found or created in the store `σ`. -/
def UploadVideo.run (u : CaseTable) (env : Env) (σ : Store) (vodUUID : String)
    (vod : Vod) (youtubeConfig : YoutubeConfig) (uploadRecord : YoutubeUpload) : Outcome :=
  match env.saveUploading with
  | some e => ⟨some ("failed to update upload status: " ++ e), σ, [], []⟩
  | none =>
    let uploadRecord := { uploadRecord with Status := "uploading", UpdatedAt := env.now }
    let σ := σ.setUpload vodUUID uploadRecord
    match getYouTubeClient env σ with
    | (.error e, σ, calls) =>
      let σ1 := match env.saveFailed with
        | some _ => σ
        | none => σ.setUpload vodUUID { uploadRecord with
            Status := "failed", ErrorMessage := e, UpdatedAt := env.now }
      ⟨some ("failed to get YouTube client: " ++ e), σ1, Call.getYouTubeClient :: calls, []⟩
    | (.ok _, σ, calls) =>
      (UploadVideo.transfer u env σ vodUUID vod youtubeConfig uploadRecord).after
        (Call.getYouTubeClient :: calls) []

/-- The record written by `YoutubeUpload.Create().SetVod(vod).SetStatus("pending")`:
every other field at its schema default. -/
def YoutubeUpload.pending (now : Time) : YoutubeUpload :=
  { YoutubeVideoID := "", YoutubeURL := "", Status := "pending", ErrorMessage := "",
    RetryCount := 0, UploadedAt := none, PlaylistIds := [], UpdatedAt := now,
    CreatedAt := now }

/-- The part of `UploadVideo` after the start line is logged. -/
def UploadVideo.body (u : CaseTable) (env : Env) (σ : Store) (vodID : String) : Outcome :=
  match env.uuidParse vodID with
  | .error e => ⟨some ("invalid VOD ID: " ++ e), σ, [], []⟩
  | .ok vodUUID =>
    match env.queryVod vodUUID with
    | .error e => ⟨some ("failed to get VOD: " ++ e), σ, [], []⟩
    | .ok vod =>
      match env.queryConfig vod with
      | .error e => ⟨some ("no YouTube config found for channel: " ++ e), σ, [], []⟩
      | .ok youtubeConfig =>
        if !youtubeConfig.UploadEnabled then
          ⟨none, σ, [], [⟨"info", "YouTube upload disabled for channel", []⟩]⟩
        else
          match σ.uploads vodUUID with
          | some uploadRecord =>
            if uploadRecord.Status = "completed" then
              ⟨none, σ, [], [⟨"info", "video already uploaded to YouTube", []⟩]⟩
            else UploadVideo.run u env σ vodUUID vod youtubeConfig uploadRecord
          | none =>
            match env.createUpload with
            | some e => ⟨some ("failed to create upload record: " ++ e), σ, [], []⟩
            | none =>
              let uploadRecord := YoutubeUpload.pending env.now
              UploadVideo.run u env (σ.setUpload vodUUID uploadRecord) vodUUID vod
                youtubeConfig uploadRecord

/-- The method `UploadVideo`: uploads a video to YouTube. -/
def UploadVideo (u : CaseTable) (env : Env) (σ : Store) (vodID : String) : Outcome :=
  (UploadVideo.body u env σ vodID).after [] [⟨"info", "starting YouTube upload", []⟩]

/-! ## Sample data and the auxiliary predicates of the statements -/

/-- A stream date, 9 March 2024, with its rendering under the two layouts the
service uses. -/
def scenarioDate : Time :=
  { unix := 1709942400, Year := 2024, Month := 3, Day := 9,
    Format := fun layout =>
      if layout = "2006-01-02" then "2024-03-09"
      else if layout = "January 2, 2006" then "March 9, 2024"
      else layout,
    long := by decide }

/-- An instant on 9 March 2024, for the clock readings of the sample data. -/
def sampleTime (unix : Int) : Time :=
  { unix := unix, Year := 2024, Month := 3, Day := 9,
    Format := fun layout =>
      if layout = "January 2, 2006" then "March 9, 2024" else layout,
    long := by decide }

/-- The video of the end-to-end scenario: chapters typed "Just Chatting" (at 0)
and "Valorant" (at 600). -/
def scenarioVod : Vod :=
  { Title := "Stream #42", StreamedAt := scenarioDate, Duration := 1200,
    VideoPath := "/vods/42.mp4", Channel := ⟨"Bob"⟩,
    Chapters := [⟨0, "Just Chatting", ""⟩, ⟨600, "Valorant", ""⟩] }

/-- A configuration with the given mappings and default settings otherwise. -/
def configWith (mappings : List YoutubePlaylistMapping) : YoutubeConfig :=
  { UploadEnabled := true, DefaultPrivacy := "private", DefaultCategoryID := "20",
    DescriptionTemplate := "", TitleTemplate := "", Tags := [], AddChapters := true,
    NotifySubscribers := false, PlaylistMappings := mappings }

/-- The configuration of the end-to-end scenario, mappings stored by descending
priority. -/
def scenarioConfig : YoutubeConfig :=
  configWith [⟨"valorant", "PL1", "", 5⟩, ⟨"just*", "PL2", "", 1⟩]

/-- The same two mappings stored in the opposite order (ascending priority). -/
def scenarioConfigAscending : YoutubeConfig :=
  configWith [⟨"just*", "PL2", "", 1⟩, ⟨"valorant", "PL1", "", 5⟩]

/-- Two mappings that target the same playlist. -/
def scenarioConfigSameTarget : YoutubeConfig :=
  configWith [⟨"valorant", "PL1", "", 5⟩, ⟨"just*", "PL1", "", 1⟩]

/-- A mapping with its priority erased. -/
def erasePriority (m : YoutubePlaylistMapping) : YoutubePlaylistMapping :=
  { m with Priority := 0 }

/-- The facts kept by the loop of `getCategoriesFromChapters` after reading the
chapters whose types are `types`: the map holds exactly the collected
categories, these are distinct, they are the non-empty types read so far, and
they come in order of first occurrence. -/
structure CategoriesInv (types : List String) (st : (String → Bool) × List String) :
    Prop where
  seen : ∀ k, st.1 k = true ↔ k ∈ st.2
  nodup : st.2.Nodup
  sound : ∀ x ∈ st.2, x ≠ "" ∧ x ∈ types
  complete : ∀ x ∈ types, x ≠ "" → x ∈ st.2
  order : ∀ a b, a ∈ st.2 → b ∈ st.2 →
    types.indexOf a < types.indexOf b → st.2.indexOf a < st.2.indexOf b

/-- Whether a call is the upload call (`Videos.Insert(...).Do()`). -/
def Call.isVideosInsert : Call → Bool
  | .videosInsert _ _ _ => true
  | _ => false

/-- Whether a call is one of the enhancement steps that follow a successful
upload: the chapter update or a playlist add. -/
def Call.isEnhancement : Call → Bool
  | .videosUpdate _ => true
  | .playlistItemsInsert _ _ => true
  | _ => false

/-- The retry count of a video's upload record before a run; a record the run
creates starts at the schema default 0. -/
def Store.retryCount (σ : Store) (vodUUID : String) : Int :=
  match σ.uploads vodUUID with
  | some r => r.RetryCount
  | none => 0

/-- The video and an upload-enabled configuration load, and the upload record
of the video already has status `completed`. -/
def AlreadyCompleted (env : Env) (σ : Store) (vodID : String) : Prop :=
  ∃ vodUUID vod config r, env.uuidParse vodID = .ok vodUUID ∧
    env.queryVod vodUUID = .ok vod ∧ env.queryConfig vod = .ok config ∧
    config.UploadEnabled = true ∧ σ.uploads vodUUID = some r ∧ r.Status = "completed"

/-- Collaborators that all answer with success: the scenario video and
configuration load, the token is fresh, and the upload call returns the remote
id `"yt123"`. -/
def scenarioEnv : Env :=
  { now := sampleTime 1000,
    uuidParse := fun s => .ok s,
    filepathJoin := fun s => s,
    queryVod := fun _ => .ok scenarioVod,
    queryConfig := fun _ => .ok scenarioConfig,
    createUpload := none, saveUploading := none, saveFailed := none, saveCompleted := none,
    queryCredential := none,
    refreshToken := .ok ⟨"at2", "rt", "Bearer", sampleTime 5000⟩,
    saveCredential := none, newService := none, openFile := none,
    videosInsert := .ok "yt123", videosUpdate := none,
    playlistItemsInsert := fun _ => none }

/-- A database with a valid credential and no upload record. -/
def scenarioStore : Store :=
  { uploads := fun _ => none,
    credential := some ⟨"at", "rt", "Bearer", sampleTime 2000, sampleTime 0⟩ }

/-- A completed upload record. -/
def completedRecord : YoutubeUpload :=
  { YoutubeVideoID := "yt123", YoutubeURL := "https://www.youtube.com/watch?v=yt123",
    Status := "completed", ErrorMessage := "", RetryCount := 0,
    UploadedAt := some (sampleTime 900), PlaylistIds := ["PL1", "PL2"],
    UpdatedAt := sampleTime 900, CreatedAt := sampleTime 800 }

/-- The scenario database after the video `"vod-1"` was uploaded. -/
def completedStore : Store :=
  scenarioStore.setUpload "vod-1" completedRecord

/-- The scenario collaborators, except that the upload call is rejected and the
database write that follows it fails as well. -/
def lostWriteEnv : Env :=
  { scenarioEnv with videosInsert := .error "quotaExceeded", saveFailed := some "db down" }

/-- The scenario collaborators, except that the upload call is rejected. -/
def rejectedEnv : Env :=
  { scenarioEnv with videosInsert := .error "quotaExceeded" }

/-- The scenario collaborators, except that the first playlist add is
rejected. -/
def firstAddRejectedEnv : Env :=
  { scenarioEnv with
    playlistItemsInsert := fun i => if i = 0 then some "playlistForbidden" else none }

/-! ## The formats as the specification words them -/

/-- The decimal numeral of a natural number, zero-padded on the left to two
digits. -/
def pad2 (n : Nat) : String :=
  ⟨List.replicate (2 - (decimal n).length) '0'⟩ ++ decimal n

/-- The timestamp format in the words of the specification: `H:MM:SS` from one
hour on, `M:SS` below, the leading field unpadded. -/
def specTimestamp (seconds : Nat) : String :=
  let h := seconds / 3600
  let m := (seconds % 3600) / 60
  let s := seconds % 60
  if seconds ≥ 3600 then decimal h ++ ":" ++ pad2 m ++ ":" ++ pad2 s
  else decimal m ++ ":" ++ pad2 s

/-- The duration format in the words of the specification: hours, minutes and
seconds as unpadded decimals, the hours left out below one hour. -/
def specDuration (seconds : Nat) : String :=
  let h := seconds / 3600
  let m := (seconds % 3600) / 60
  let s := seconds % 60
  if seconds ≥ 3600 then decimal h ++ "h " ++ decimal m ++ "m " ++ decimal s ++ "s"
  else decimal m ++ "m " ++ decimal s ++ "s"

/-- The chapter block in the words of the specification: nothing for no
chapters, else the header line and one line per chapter, in input order, of the
timestamp, `" - "` and the label (the title if non-empty, else the type). -/
def specChapterBlock (cs : List Chapter) : String :=
  if cs.isEmpty then ""
  else "Chapters:\n" ++ String.join (cs.map (fun chapter =>
    formatTimestamp chapter.Start ++ " - " ++
      (if chapter.Title ≠ "" then chapter.Title else chapter.Type_) ++ "\n"))

/-- Whether the text `sub` occurs in `s`. -/
def occursIn (sub s : String) : Prop := sub.data <:+: s.data

/-- The scenario video with a title that looks like a placeholder. -/
def placeholderTitleVod : Vod := { scenarioVod with Title := "\x7bdate\x7d \x7bchannel\x7d" }

/-- The video and its configuration load, and the configuration has uploads
disabled. -/
def UploadDisabled (env : Env) (vodID : String) : Prop :=
  ∃ vodUUID vod config, env.uuidParse vodID = .ok vodUUID ∧
    env.queryVod vodUUID = .ok vod ∧ env.queryConfig vod = .ok config ∧
    config.UploadEnabled = false

/-- The scenario collaborators, except that the channel has uploads disabled. -/
def disabledEnv : Env :=
  { scenarioEnv with
    queryConfig := fun _ => .ok { scenarioConfig with UploadEnabled := false } }

/-- The scenario collaborators, except that the YouTube service cannot be
created, so that acquiring the client fails. -/
def clientFailsEnv : Env :=
  { scenarioEnv with newService := some "dial tcp: i/o timeout" }

/-- The scenario collaborators, except that the video file cannot be opened. -/
def fileMissingEnv : Env :=
  { scenarioEnv with openFile := some "open /vods/42.mp4: no such file or directory" }

/-- Whether a call is a playlist add. -/
def Call.isPlaylistAdd : Call → Bool
  | .playlistItemsInsert _ _ => true
  | _ => false

/-- The collaborators `env` with other answers to the enhancement steps: `upd`
to the chapter update and `adds` to the playlist adds. -/
def Env.withEnhancements (env : Env) (upd : Option String) (adds : Nat → Option String) :
    Env :=
  { env with videosUpdate := upd, playlistItemsInsert := adds }

/-- The error text of the step at which a run that got as far as acquiring the
client fails: the error of `getYouTubeClient`, else of opening the file, else of
the upload call; `none` when all three succeed. -/
def failingStepError (env : Env) (σ : Store) : Option String :=
  match (getYouTubeClient env σ).1 with
  | .error e => some e
  | .ok _ =>
    match env.openFile with
    | some e => some e
    | none =>
      match env.videosInsert with
      | .error e => some e
      | .ok _ => none

/-- Two outcomes with the same returned error, the same database and the same
calls (the log may differ). -/
def Outcome.sameResult (a b : Outcome) : Prop :=
  a.err = b.err ∧ a.store = b.store ∧ a.calls = b.calls

/-- The scenario collaborators, except that the chapter update and every playlist
add are rejected. -/
def enhancementsRejectedEnv : Env :=
  scenarioEnv.withEnhancements (some "forbidden") (fun _ => some "playlistForbidden")

/-! ## The resumable upload -/

/-- An invocation of one of the callbacks of a `ResumableUpload`. -/
inductive CallbackEvent where
  | progress (bytesUploaded totalBytes : Int)
  | complete (videoID : String)
  | error (err : String)
deriving DecidableEq

/-- The struct `ResumableUpload`. A callback field is a Go closure; it is
represented by whether it is set (non-nil), and its invocations are recorded as
`CallbackEvent`s. The field `Service` is the remote host, whose answer is in
`TransferEnv`. -/
structure ResumableUpload where
  Video : Video
  FilePath : String
  ChunkSize : Int
  OnProgress : Bool
  OnComplete : Bool
  OnError : Bool

/-- The answers of the file system and of the remote host during one run of
`ResumableUpload.Upload`: the error of `os.Open`, the size `file.Stat()` reports,
the byte counts of the successive reads the transfer makes on the file, and the
result of `call.Do()` (the remote id or the error). -/
structure TransferEnv where
  openFile : Option String
  stat : Except String Int
  reads : List Int
  callDo : Except String String

/-- The struct `progressReader`, with the invocations of `onProgress` made so
far. -/
structure progressReader where
  totalBytes : Int
  bytesUploaded : Int
  events : List CallbackEvent

/-- The method `progressReader.Read` for a read that returns `n` bytes: the
count is added and `onProgress` is invoked with the new total. -/
def progressReader.Read (pr : progressReader) (n : Int) : progressReader :=
  let bytesUploaded := pr.bytesUploaded + n
  { pr with bytesUploaded := bytesUploaded,
            events := pr.events ++ [CallbackEvent.progress bytesUploaded pr.totalBytes] }

/-- The method `ResumableUpload.Upload`: the returned Go `error` (`none` for `nil`)
and the callback invocations, in order. -/
def ResumableUpload.Upload (r : ResumableUpload) (env : TransferEnv) :
    Option String × List CallbackEvent :=
  match env.openFile with
  | some e => (some ("failed to open file: " ++ e), [])
  | none =>
    match env.stat with
    | .error e => (some ("failed to get file info: " ++ e), [])
    | .ok size =>
      let progress : List CallbackEvent :=
        if r.OnProgress then
          (env.reads.foldl progressReader.Read ⟨size, 0, []⟩).events
        else []
      match env.callDo with
      | .error e =>
        (some ("upload failed: " ++ e),
          progress ++ (if r.OnError then [CallbackEvent.error e] else []))
      | .ok responseId =>
        (none, progress ++ (if r.OnComplete then [CallbackEvent.complete responseId] else []))

/-- The invocations of `OnComplete` and `OnError` among the callback events. -/
def CallbackEvent.isOutcome : CallbackEvent → Bool
  | .complete _ => true
  | .error _ => true
  | .progress _ _ => false

/-- A resumable upload of the scenario file with all three callbacks set. -/
def scenarioUpload : ResumableUpload :=
  { Video := { Id := "", Snippet := ⟨"Stream #42", "", "20", []⟩, PrivacyStatus := some "private" },
    FilePath := "/vods/42.mp4", ChunkSize := 8388608,
    OnProgress := true, OnComplete := true, OnError := true }

/-- A transfer in which the 1000-byte file is read in two chunks and the remote
host answers with the id `"yt123"`. -/
def scenarioTransfer : TransferEnv :=
  { openFile := none, stat := .ok 1000, reads := [600, 400, 0], callDo := .ok "yt123" }

/-! ## Further sample data -/

/-- The scenario video with the title `"{channel}"`. -/
def channelTitleVod : Vod := { scenarioVod with Title := "\x7bchannel\x7d" }

/-- The scenario video with the title `"{duration} of fun"` and a duration of 125
seconds. -/
def durationTitleVod : Vod :=
  { scenarioVod with Title := "\x7bduration\x7d of fun", Duration := 125 }

/-- The scenario video with chapters whose types are all empty. -/
def untypedChaptersVod : Vod :=
  { scenarioVod with Chapters := [⟨0, "", "Intro"⟩, ⟨600, "", "Main part"⟩] }

/-! ## Auxiliary notions for runs in sequence -/

/-- The record a run works on: the one found for the video, or the one the run
creates (at the clock reading `now`) when there is none. -/
def Store.recordBefore (σ : Store) (vodUUID : String) (now : Time) : YoutubeUpload :=
  match σ.uploads vodUUID with
  | some r => r
  | none => YoutubeUpload.pending now

/-- The scenario database with a failed upload record for `"vod-1"` whose retry
count is the largest Go `int`. -/
def maxRetryStore : Store :=
  scenarioStore.setUpload "vod-1"
    { YoutubeUpload.pending (sampleTime 800) with
      Status := "failed", ErrorMessage := "upload failed: quotaExceeded",
      RetryCount := 9223372036854775807 }

/-- The databases after each run of a sequence of `UploadVideo` runs (each with
its collaborators and its video id) that starts from `σ`, in order. -/
def UploadVideo.trajectory (u : CaseTable) (σ : Store) : List (Env × String) → List Store
  | [] => []
  | (env, vodID) :: rest =>
    (UploadVideo u env σ vodID).store ::
      UploadVideo.trajectory u (UploadVideo u env σ vodID).store rest

/-- The database after a sequence of `UploadVideo` runs that starts from `σ`. -/
def UploadVideo.finalStore (u : CaseTable) (σ : Store) (runs : List (Env × String)) : Store :=
  runs.foldl (fun s p => (UploadVideo u p.1 s p.2).store) σ

/-- Every non-empty error message in the database is the message of a record that
was `failed` in one of the listed databases. -/
def MessagesTraced (σ : Store) (seen : List Store) : Prop :=
  ∀ k r, σ.uploads k = some r → r.ErrorMessage ≠ "" →
    ∃ σf ∈ seen, ∃ rf, σf.uploads k = some rf ∧ rf.Status = "failed" ∧
      rf.ErrorMessage = r.ErrorMessage

theorem matchPlaylists.scan_eq (u : CaseTable) (m : YoutubePlaylistMapping)
    (acc categories : List String) :
    matchPlaylists.scan u m acc categories =
      if mappingMatches u categories m then acc ++ [m.PlaylistID] else acc := by
  induction categories with
  | nil => simp [matchPlaylists.scan, mappingMatches]
  | cons c cs ih =>
    unfold matchPlaylists.scan
    by_cases h : matchCategory u m.GameCategory c = true
    · simp [h, mappingMatches]
    · simp only [h, if_false, ih]
      simp [mappingMatches, h]

theorem matchPlaylists.foldl_eq (u : CaseTable) (categories : List String)
    (ms : List YoutubePlaylistMapping) (acc : List String) :
    ms.foldl (fun playlistIDs mapping =>
        matchPlaylists.scan u mapping playlistIDs categories) acc =
      acc ++ (ms.filter (mappingMatches u categories)).map (fun m => m.PlaylistID) := by
  induction ms generalizing acc with
  | nil => simp
  | cons m ms ih =>
    rw [List.foldl_cons, ih, matchPlaylists.scan_eq]
    by_cases h : mappingMatches u categories m = true
    · simp [h]
    · simp [h]

theorem matchPlaylists_eq (u : CaseTable) (config : YoutubeConfig) (vod : Vod) :
    matchPlaylists u config vod =
      (config.PlaylistMappings.filter
        (mappingMatches u (getCategoriesFromChapters vod.Chapters))).map
        (fun m => m.PlaylistID) := by
  unfold matchPlaylists
  simp [matchPlaylists.foldl_eq]

/-! ## Playlist routing: the checked properties -/

/-- C1: `matchPlaylists` returns exactly the playlist ids of the mappings whose
pattern matches (by `matchCategory`) at least one category of
`getCategoriesFromChapters`, one id per such mapping, in the order of the
mappings. -/
theorem matchPlaylists_spec (u : CaseTable) (config : YoutubeConfig) (vod : Vod) :
    matchPlaylists u config vod =
      (config.PlaylistMappings.filter (fun m =>
        decide (∃ c ∈ getCategoriesFromChapters vod.Chapters,
          matchCategory u m.GameCategory c = true))).map
        (fun m => m.PlaylistID) := by
  rw [matchPlaylists_eq]
  congr 1
  apply List.filter_congr
  intro m _
  rw [Bool.eq_iff_iff]
  simp [mappingMatches, List.any_eq_true]

/-! ## Lemmas on the string helpers -/

theorem CaseTable.toLower_star (u : CaseTable) : u.toLower '*' = '*' := by
  rw [u.ascii '*' (by decide)]
  rfl

theorem CaseTable.not_mem_map (u : CaseTable) (l : List Char) (h : '*' ∉ l) :
    '*' ∉ l.map u.toLower := by
  intro hm
  obtain ⟨c, hc, hcs⟩ := List.mem_map.mp hm
  exact h (u.star c hcs ▸ hc)

theorem CaseTable.count_map (u : CaseTable) (l : List Char) :
    (l.map u.toLower).count '*' = l.count '*' := by
  induction l with
  | nil => rfl
  | cons c cs ih =>
    rw [List.map_cons, List.count_cons, List.count_cons, ih]
    by_cases hc : c = '*'
    · subst hc
      simp [u.toLower_star]
    · have : u.toLower c ≠ '*' := fun h => hc (u.star c h)
      simp [hc, this]

theorem strings.splitRunes_of_not_mem (sep : Char) (l : List Char) (h : sep ∉ l) :
    strings.splitRunes sep l = [l] := by
  induction l with
  | nil => rfl
  | cons c cs ih =>
    have hc : c ≠ sep := fun e => h (e ▸ List.mem_cons_self _ _)
    have hcs : sep ∉ cs := fun e => h (List.mem_cons_of_mem _ e)
    simp [strings.splitRunes, hc, ih hcs]

theorem strings.splitRunes_append (sep : Char) (l r : List Char) (h : sep ∉ l) :
    strings.splitRunes sep (l ++ sep :: r) = l :: strings.splitRunes sep r := by
  induction l with
  | nil => simp [strings.splitRunes]
  | cons c cs ih =>
    have hc : c ≠ sep := fun e => h (e ▸ List.mem_cons_self _ _)
    have hcs : sep ∉ cs := fun e => h (List.mem_cons_of_mem _ e)
    simp [strings.splitRunes, hc, ih hcs]

theorem strings.length_splitRunes (sep : Char) (l : List Char) :
    (strings.splitRunes sep l).length = l.count sep + 1 := by
  induction l with
  | nil => rfl
  | cons c cs ih =>
    unfold strings.splitRunes
    by_cases hc : c = sep
    · subst hc
      simp [ih]
    · rw [if_neg hc]
      have hne : (c == sep) = false := by simpa using hc
      rw [List.count_cons, hne]
      cases hs : strings.splitRunes sep cs with
      | nil => rw [hs] at ih; simp at ih
      | cons p ps => rw [hs] at ih; simpa using ih

theorem strings.ToLower_data (u : CaseTable) (s : String) :
    (strings.ToLower u s).data = s.data.map u.toLower := rfl

/-- On a string of ASCII runes every case table acts as the ASCII one. -/
theorem strings.ToLower_ascii (u : CaseTable) (s : String)
    (h : ∀ c ∈ s.data, c.val < 128) :
    strings.ToLower u s = strings.ToLower asciiTable s := by
  unfold strings.ToLower
  congr 1
  apply List.map_congr_left
  intro c hc
  exact u.ascii c (h c hc)

/-- The wildcard branch of `matchCategory`: one `*` between two star-free
pieces. -/
theorem matchCategory_wildcard_data (u : CaseTable) (P S c : String)
    (hP : '*' ∉ P.data) (hS : '*' ∉ S.data) :
    matchCategory u (P ++ "*" ++ S) c = true ↔
      (strings.ToLower u P).data <+: (strings.ToLower u c).data ∧
      (strings.ToLower u S).data <:+ (strings.ToLower u c).data := by
  have hdata : (strings.ToLower u (P ++ "*" ++ S)).data =
      P.data.map u.toLower ++ '*' :: S.data.map u.toLower := by
    simp [strings.ToLower, String.data_append, u.toLower_star]
  have hcont : strings.Contains (strings.ToLower u (P ++ "*" ++ S)) '*' = true := by
    simp [strings.Contains, hdata]
  have hsplit : strings.Split (strings.ToLower u (P ++ "*" ++ S)) '*' =
      [strings.ToLower u P, strings.ToLower u S] := by
    unfold strings.Split
    rw [hdata, strings.splitRunes_append _ _ _ (u.not_mem_map _ hP),
      strings.splitRunes_of_not_mem _ _ (u.not_mem_map _ hS)]
    rfl
  unfold matchCategory
  simp only [hcont, if_true, hsplit]
  by_cases h0 : strings.ToLower u P = ""
  · simp [h0, strings.HasSuffix]
  · by_cases h1 : strings.ToLower u S = ""
    · simp [h0, h1, strings.HasPrefix]
    · simp [h0, h1, strings.HasPrefix, strings.HasSuffix]


/-- On ASCII inputs every case table gives the verdict of the ASCII one. -/
theorem matchCategory_ascii (u : CaseTable) (p c : String)
    (hp : ∀ x ∈ p.data, x.val < 128) (hc : ∀ x ∈ c.data, x.val < 128) :
    matchCategory u p c = matchCategory asciiTable p c := by
  unfold matchCategory
  rw [strings.ToLower_ascii u p hp, strings.ToLower_ascii u c hc]

/-- The fallback branch of `matchCategory`: anything but exactly one `*`. -/
theorem matchCategory_fallback (u : CaseTable) (p c : String)
    (h : p.data.count '*' ≠ 1) :
    matchCategory u p c = (strings.ToLower u p == strings.ToLower u c) := by
  have hlen : (strings.Split (strings.ToLower u p) '*').length ≠ 2 := by
    unfold strings.Split
    rw [List.length_map, strings.length_splitRunes, strings.ToLower_data, u.count_map]
    omega
  unfold matchCategory
  simp only
  split
  · split
    · rename_i p0 p1 heq
      rw [heq] at hlen
      simp at hlen
    · rfl
  · rfl

/-- C2: for star-free `P` and `S` (either may be empty),
`matchCategory (P ++ "*" ++ S) c` holds exactly when the lower-cased category
starts with the lower-cased `P` and ends with the lower-cased `S`, with no
minimum-length check; the three sample matches of the specification hold. -/
theorem matchCategory_wildcard (u : CaseTable) (P S c : String)
    (hP : '*' ∉ P.data) (hS : '*' ∉ S.data) :
    (matchCategory u (P ++ "*" ++ S) c = true ↔
      (strings.ToLower u P).data <+: (strings.ToLower u c).data ∧
      (strings.ToLower u S).data <:+ (strings.ToLower u c).data) ∧
    matchCategory u "just chatting*" "Just Chatting IRL" = true ∧
    matchCategory u "*chatting" "just chatting" = true ∧
    matchCategory u "a*b" "ab" = true := by
  refine ⟨matchCategory_wildcard_data u P S c hP hS, ?_, ?_, ?_⟩
  · rw [matchCategory_ascii u _ _ (by decide) (by decide)]
    decide
  · rw [matchCategory_ascii u _ _ (by decide) (by decide)]
    decide
  · rw [matchCategory_ascii u _ _ (by decide) (by decide)]
    decide

/-- C2 at a concrete input: pattern `"Just*IRL"` against `"just chatting irl"`. -/
theorem matchCategory_wildcard_witness :
    '*' ∉ "Just".data ∧ '*' ∉ "IRL".data ∧
    ((matchCategory asciiTable ("Just" ++ "*" ++ "IRL") "just chatting irl" = true ↔
      (strings.ToLower asciiTable "Just").data <+:
          (strings.ToLower asciiTable "just chatting irl").data ∧
      (strings.ToLower asciiTable "IRL").data <:+
          (strings.ToLower asciiTable "just chatting irl").data) ∧
    matchCategory asciiTable "just chatting*" "Just Chatting IRL" = true ∧
    matchCategory asciiTable "*chatting" "just chatting" = true ∧
    matchCategory asciiTable "a*b" "ab" = true) :=
  ⟨by decide, by decide,
    matchCategory_wildcard asciiTable "Just" "IRL" "just chatting irl" (by decide) (by decide)⟩

/-- C3: a pattern that does not contain exactly one `*` (none, or two or more)
matches a category exactly when their lower-cased forms are equal, any `*`
being compared literally; `"Valorant"` matches `"valorant"`. -/
theorem matchCategory_exact (u : CaseTable) (p c : String)
    (h : p.data.count '*' ≠ 1) :
    (matchCategory u p c = true ↔ strings.ToLower u p = strings.ToLower u c) ∧
    matchCategory u "Valorant" "valorant" = true := by
  constructor
  · rw [matchCategory_fallback u p c h]
    simp
  · rw [matchCategory_ascii u _ _ (by decide) (by decide)]
    decide

/-- C3 at a concrete input: the two-star pattern `"a*B*"` matches `"A*b*"` and
nothing is globbed. -/
theorem matchCategory_exact_witness :
    "a*B*".data.count '*' ≠ 1 ∧
    ((matchCategory asciiTable "a*B*" "A*b*" = true ↔
      strings.ToLower asciiTable "a*B*" = strings.ToLower asciiTable "A*b*") ∧
    matchCategory asciiTable "Valorant" "valorant" = true) :=
  ⟨by decide, matchCategory_exact asciiTable "a*B*" "A*b*" (by decide)⟩


theorem mappingMatches_erasePriority (u : CaseTable) (cats : List String)
    (m : YoutubePlaylistMapping) :
    mappingMatches u cats (erasePriority m) = mappingMatches u cats m := rfl

theorem routed_erasePriority (u : CaseTable) (cats : List String)
    (ms : List YoutubePlaylistMapping) :
    ((ms.map erasePriority).filter (mappingMatches u cats)).map (fun m => m.PlaylistID) =
      (ms.filter (mappingMatches u cats)).map (fun m => m.PlaylistID) := by
  induction ms with
  | nil => rfl
  | cons m ms ih =>
    rw [List.map_cons, List.filter_cons, List.filter_cons, mappingMatches_erasePriority]
    by_cases h : mappingMatches u cats m = true
    · simp only [h, if_true, List.map_cons, ih]
      rfl
    · have hf : mappingMatches u cats m = false := by simpa using h
      simp only [hf, Bool.false_eq_true, if_false, ih]

theorem scenario_categories :
    getCategoriesFromChapters scenarioVod.Chapters = ["Just Chatting", "Valorant"] := by
  decide

/-- The four pattern/category verdicts of the end-to-end scenario. -/
theorem scenario_verdicts (u : CaseTable) :
    matchCategory u "valorant" "Just Chatting" = false ∧
    matchCategory u "valorant" "Valorant" = true ∧
    matchCategory u "just*" "Just Chatting" = true ∧
    matchCategory u "just*" "Valorant" = false := by
  refine ⟨?_, ?_, ?_, ?_⟩ <;>
    (rw [matchCategory_ascii u _ _ (by decide) (by decide)]; decide)

/-- C4: `matchPlaylists` applies no sort. Its output is a sublist of the
mappings' playlist ids in list order, it is unchanged when only the priority
values of the mappings change, two matching mappings `[M1, M2]` give
`[M1.PlaylistID, M2.PlaylistID]`, and the end-to-end scenario gives
`["PL1", "PL2"]`. -/
theorem matchPlaylists_no_sort (u : CaseTable) (config config' : YoutubeConfig) (vod : Vod)
    (h : config'.PlaylistMappings.map erasePriority =
      config.PlaylistMappings.map erasePriority) :
    List.Sublist (matchPlaylists u config vod)
      (config.PlaylistMappings.map (fun m => m.PlaylistID)) ∧
    matchPlaylists u config' vod = matchPlaylists u config vod ∧
    (∀ M1 M2 : YoutubePlaylistMapping, config.PlaylistMappings = [M1, M2] →
      mappingMatches u (getCategoriesFromChapters vod.Chapters) M1 = true →
      mappingMatches u (getCategoriesFromChapters vod.Chapters) M2 = true →
      matchPlaylists u config vod = [M1.PlaylistID, M2.PlaylistID]) ∧
    matchPlaylists u scenarioConfig scenarioVod = ["PL1", "PL2"] := by
  refine ⟨?_, ?_, ?_, ?_⟩
  · rw [matchPlaylists_eq]
    exact (List.filter_sublist _).map _
  · rw [matchPlaylists_eq, matchPlaylists_eq, ← routed_erasePriority u _ config'.PlaylistMappings,
      ← routed_erasePriority u _ config.PlaylistMappings, h]
  · intro M1 M2 hms h1 h2
    rw [matchPlaylists_eq, hms]
    simp [List.filter_cons, h1, h2]
  · obtain ⟨h1, h2, h3, h4⟩ := scenario_verdicts u
    rw [matchPlaylists_eq, scenario_categories]
    simp [scenarioConfig, configWith, List.filter_cons, mappingMatches, h1, h2, h3, h4]

/-- C4 at a concrete input: the scenario mappings with their priorities swapped
route exactly as the scenario itself. -/
theorem matchPlaylists_no_sort_witness :
    matchPlaylists asciiTable
        (configWith [⟨"valorant", "PL1", "", 1⟩, ⟨"just*", "PL2", "", 5⟩]) scenarioVod =
      matchPlaylists asciiTable scenarioConfig scenarioVod ∧
    matchPlaylists asciiTable scenarioConfig scenarioVod = ["PL1", "PL2"] :=
  have h := matchPlaylists_no_sort asciiTable scenarioConfig
    (configWith [⟨"valorant", "PL1", "", 1⟩, ⟨"just*", "PL2", "", 5⟩]) scenarioVod (by decide)
  ⟨h.2.1, h.2.2.1 _ _ rfl (by decide) (by decide)⟩

/-- C5 (evaluation of the code): with the two scenario mappings stored in
ascending priority, both match and the playlist of the priority-1 mapping comes
out before the playlist of the priority-5 mapping. -/
theorem matchPlaylists_stored_order_wins (u : CaseTable) :
    scenarioConfigAscending.PlaylistMappings =
      [⟨"just*", "PL2", "", 1⟩, ⟨"valorant", "PL1", "", 5⟩] ∧
    mappingMatches u (getCategoriesFromChapters scenarioVod.Chapters)
      ⟨"just*", "PL2", "", 1⟩ = true ∧
    mappingMatches u (getCategoriesFromChapters scenarioVod.Chapters)
      ⟨"valorant", "PL1", "", 5⟩ = true ∧
    matchPlaylists u scenarioConfigAscending scenarioVod = ["PL2", "PL1"] := by
  obtain ⟨h1, h2, h3, h4⟩ := scenario_verdicts u
  refine ⟨rfl, ?_, ?_, ?_⟩
  · rw [scenario_categories]
    simp [mappingMatches, h3]
  · rw [scenario_categories]
    simp [mappingMatches, h2]
  · rw [matchPlaylists_eq, scenario_categories]
    simp [scenarioConfigAscending, configWith, List.filter_cons, mappingMatches, h1, h2, h3, h4]

theorem count_map_playlistID (X : String) (ms : List YoutubePlaylistMapping) :
    (ms.map (fun m => m.PlaylistID)).count X =
      (ms.filter (fun m => m.PlaylistID == X)).length := by
  induction ms with
  | nil => rfl
  | cons m ms ih =>
    rw [List.map_cons, List.count_cons, ih, List.filter_cons]
    by_cases h : m.PlaylistID = X
    · simp [h]
    · simp [h]

/-- C6: `matchPlaylists` does not deduplicate across mappings. The number of
occurrences of a playlist id `X` in the output is the number of matching
mappings whose playlist id is `X`; two matching mappings with the same target
make it appear twice. -/
theorem matchPlaylists_count (u : CaseTable) (config : YoutubeConfig) (vod : Vod)
    (X : String) :
    (matchPlaylists u config vod).count X =
      ((config.PlaylistMappings.filter
        (mappingMatches u (getCategoriesFromChapters vod.Chapters))).filter
        (fun m => m.PlaylistID == X)).length ∧
    (∀ M1 M2 : YoutubePlaylistMapping, config.PlaylistMappings = [M1, M2] →
      mappingMatches u (getCategoriesFromChapters vod.Chapters) M1 = true →
      mappingMatches u (getCategoriesFromChapters vod.Chapters) M2 = true →
      M1.PlaylistID = X → M2.PlaylistID = X →
      matchPlaylists u config vod = [X, X]) := by
  constructor
  · rw [matchPlaylists_eq, count_map_playlistID]
  · intro M1 M2 hms h1 h2 hx1 hx2
    rw [matchPlaylists_eq, hms]
    simp [List.filter_cons, h1, h2, hx1, hx2]

/-- C6 at a concrete input: two matching mappings that both target `"PL1"`. -/
theorem matchPlaylists_count_witness :
    (matchPlaylists asciiTable scenarioConfigSameTarget scenarioVod).count "PL1" = 2 ∧
    matchPlaylists asciiTable scenarioConfigSameTarget scenarioVod = ["PL1", "PL1"] :=
  have h := matchPlaylists_count asciiTable scenarioConfigSameTarget scenarioVod "PL1"
  ⟨h.1.trans (by decide), h.2 _ _ rfl (by decide) (by decide) rfl rfl⟩


/-! ## Category extraction -/

theorem getCategoriesFromChapters.step_inv (types : List String)
    (st : (String → Bool) × List String) (ch : Chapter) (inv : CategoriesInv types st) :
    CategoriesInv (types ++ [ch.Type_]) (getCategoriesFromChapters.step st ch) := by
  unfold getCategoriesFromChapters.step
  by_cases hnew : (ch.Type_ != "" && !st.1 ch.Type_) = true
  · rw [if_pos hnew]
    have hne : ch.Type_ ≠ "" := by
      simp only [Bool.and_eq_true, bne_iff_ne] at hnew
      exact hnew.1
    have hnotin : ch.Type_ ∉ st.2 := by
      simp only [Bool.and_eq_true, Bool.not_eq_true'] at hnew
      intro hmem
      have := (inv.seen _).mpr hmem
      rw [hnew.2] at this
      exact Bool.false_ne_true this
    have hnotty : ch.Type_ ∉ types := fun hm => hnotin (inv.complete _ hm hne)
    refine ⟨?_, ?_, ?_, ?_, ?_⟩
    · intro k
      by_cases hk : k = ch.Type_
      · simp [hk]
      · simp [hk, inv.seen k]
    · exact List.Nodup.append inv.nodup (List.nodup_singleton _)
        (fun a ha hs => hnotin ((List.mem_singleton.mp hs) ▸ ha))
    · intro x hx
      rcases List.mem_append.mp hx with hx | hx
      · exact ⟨(inv.sound x hx).1, List.mem_append_left _ (inv.sound x hx).2⟩
      · have : x = ch.Type_ := by simpa using hx
        subst this
        exact ⟨hne, by simp⟩
    · intro x hx hxne
      rcases List.mem_append.mp hx with hx | hx
      · exact List.mem_append_left _ (inv.complete x hx hxne)
      · exact List.mem_append_right _ hx
    · intro a b ha hb hlt
      simp only at ha hb ⊢
      rcases List.mem_append.mp ha with ha | ha
      · rw [List.indexOf_append_of_mem ha]
        rcases List.mem_append.mp hb with hb | hb
        · rw [List.indexOf_append_of_mem hb]
          rw [List.indexOf_append_of_mem (inv.sound a ha).2,
            List.indexOf_append_of_mem (inv.sound b hb).2] at hlt
          exact inv.order a b ha hb hlt
        · have hbe : b = ch.Type_ := by simpa using hb
          subst hbe
          rw [List.indexOf_append_of_not_mem hnotin]
          have := List.indexOf_lt_length.mpr ha
          omega
      · have hae : a = ch.Type_ := by simpa using ha
        subst hae
        exfalso
        rw [List.indexOf_append_of_not_mem hnotty] at hlt
        rcases List.mem_append.mp hb with hb | hb
        · rw [List.indexOf_append_of_mem (inv.sound b hb).2] at hlt
          have := List.indexOf_lt_length.mpr (inv.sound b hb).2
          omega
        · have hbe : b = ch.Type_ := by simpa using hb
          rw [hbe, List.indexOf_append_of_not_mem hnotty] at hlt
          omega
  · rw [if_neg hnew]
    refine ⟨inv.seen, inv.nodup, ?_, ?_, ?_⟩
    · intro x hx
      exact ⟨(inv.sound x hx).1, List.mem_append_left _ (inv.sound x hx).2⟩
    · intro x hx hxne
      rcases List.mem_append.mp hx with hx | hx
      · exact inv.complete x hx hxne
      · have hxe : x = ch.Type_ := by simpa using hx
        subst hxe
        by_cases hs : st.1 ch.Type_ = true
        · exact (inv.seen _).mp hs
        · exfalso
          apply hnew
          simp only [Bool.and_eq_true, bne_iff_ne, Bool.not_eq_true']
          exact ⟨hxne, by simpa using hs⟩
    · intro a b ha hb hlt
      rw [List.indexOf_append_of_mem (inv.sound a ha).2,
        List.indexOf_append_of_mem (inv.sound b hb).2] at hlt
      exact inv.order a b ha hb hlt

theorem getCategoriesFromChapters.foldl_inv (chapters : List Chapter) :
    CategoriesInv (chapters.map (fun ch => ch.Type_))
      (chapters.foldl getCategoriesFromChapters.step (fun _ => false, [])) := by
  induction chapters using List.reverseRecOn with
  | nil =>
    exact ⟨by simp, List.nodup_nil, by simp, by simp, by simp⟩
  | append_singleton cs ch ih =>
    rw [List.foldl_append, List.map_append]
    exact getCategoriesFromChapters.step_inv _ _ ch ih

/-- C7: `getCategoriesFromChapters` returns a duplicate-free list of chapter
type labels in order of first occurrence: if `a` first occurs at an earlier
chapter than `b` and both are in the output, `a` comes before `b`. -/
theorem getCategoriesFromChapters_nodup_ordered (chapters : List Chapter) :
    (getCategoriesFromChapters chapters).Nodup ∧
    (∀ x ∈ getCategoriesFromChapters chapters, ∃ ch ∈ chapters, ch.Type_ = x) ∧
    (∀ a b, a ∈ getCategoriesFromChapters chapters →
      b ∈ getCategoriesFromChapters chapters →
      (chapters.map (fun ch => ch.Type_)).indexOf a <
        (chapters.map (fun ch => ch.Type_)).indexOf b →
      (getCategoriesFromChapters chapters).indexOf a <
        (getCategoriesFromChapters chapters).indexOf b) := by
  have inv := getCategoriesFromChapters.foldl_inv chapters
  refine ⟨inv.nodup, ?_, inv.order⟩
  intro x hx
  obtain ⟨ch, hch, he⟩ := List.mem_map.mp (inv.sound x hx).2
  exact ⟨ch, hch, he⟩

/-- C7 at a concrete input: chapters typed B, A, B, "", A give `["B", "A"]`, with
"B" (first seen at chapter 0) before "A" (first seen at chapter 1). -/
theorem getCategoriesFromChapters_nodup_ordered_witness :
    getCategoriesFromChapters
        [⟨0, "B", ""⟩, ⟨10, "A", ""⟩, ⟨20, "B", ""⟩, ⟨30, "", "x"⟩, ⟨40, "A", ""⟩] =
      ["B", "A"] ∧
    (getCategoriesFromChapters
        [⟨0, "B", ""⟩, ⟨10, "A", ""⟩, ⟨20, "B", ""⟩, ⟨30, "", "x"⟩, ⟨40, "A", ""⟩]).indexOf "B" <
      (getCategoriesFromChapters
        [⟨0, "B", ""⟩, ⟨10, "A", ""⟩, ⟨20, "B", ""⟩, ⟨30, "", "x"⟩, ⟨40, "A", ""⟩]).indexOf "A" :=
  ⟨by decide,
    (getCategoriesFromChapters_nodup_ordered
      [⟨0, "B", ""⟩, ⟨10, "A", ""⟩, ⟨20, "B", ""⟩, ⟨30, "", "x"⟩, ⟨40, "A", ""⟩]).2.2
      "B" "A" (by decide) (by decide) (by decide)⟩


/-! ## The upload state machine: lemmas -/

theorem getYouTubeClient_uploads (env : Env) (σ : Store) :
    (getYouTubeClient env σ).2.1.uploads = σ.uploads := by
  unfold getYouTubeClient
  split
  · rfl
  · rfl
  · simp only
    split
    · split
      · rfl
      · split
        · rfl
        · split <;> rfl
    · split <;> rfl

theorem getYouTubeClient_calls (env : Env) (σ : Store) :
    ∀ c ∈ (getYouTubeClient env σ).2.2, c = Call.refreshToken := by
  unfold getYouTubeClient
  split
  · simp
  · simp
  · simp only
    split
    · split
      · simp
      · split
        · simp
        · split <;> simp
    · split <;> simp

theorem Outcome.after_err (calls : List Call) (logs : List LogLine) (o : Outcome) :
    (o.after calls logs).err = o.err := rfl

theorem Outcome.after_store (calls : List Call) (logs : List LogLine) (o : Outcome) :
    (o.after calls logs).store = o.store := rfl

theorem Outcome.after_calls (calls : List Call) (logs : List LogLine) (o : Outcome) :
    (o.after calls logs).calls = calls ++ o.calls := rfl

theorem Store.setUpload_same (σ : Store) (k : String) (r : YoutubeUpload) :
    (σ.setUpload k r).uploads k = some r := by
  simp [Store.setUpload]

/-- C8: when the video and an upload-enabled configuration load and the upload
record already has status `completed`, `UploadVideo` returns success, acquires
no client, makes no call and leaves the database as it was; a second invocation
does the same, so the state after two invocations is the state before the
first. -/
theorem UploadVideo_completed_noop (u : CaseTable) (env env2 : Env) (σ : Store)
    (vodID : String) (h : AlreadyCompleted env σ vodID)
    (h2 : AlreadyCompleted env2 σ vodID) :
    (UploadVideo u env σ vodID).err = none ∧
    (UploadVideo u env σ vodID).calls = [] ∧
    (UploadVideo u env σ vodID).store = σ ∧
    (UploadVideo u env2 (UploadVideo u env σ vodID).store vodID).err = none ∧
    (UploadVideo u env2 (UploadVideo u env σ vodID).store vodID).calls = [] ∧
    (UploadVideo u env2 (UploadVideo u env σ vodID).store vodID).store = σ := by
  have key : ∀ e : Env, AlreadyCompleted e σ vodID →
      (UploadVideo u e σ vodID).err = none ∧ (UploadVideo u e σ vodID).calls = [] ∧
      (UploadVideo u e σ vodID).store = σ := by
    intro e he
    obtain ⟨vodUUID, vod, config, r, hp, hv, hc, hen, hr, hs⟩ := he
    simp [UploadVideo, UploadVideo.body, Outcome.after, hp, hv, hc, hen, hr, hs]
  obtain ⟨a1, a2, a3⟩ := key env h
  rw [a3]
  obtain ⟨b1, b2, b3⟩ := key env2 h2
  exact ⟨a1, a2, rfl, b1, b2, b3⟩

theorem completedStore_alreadyCompleted (env : Env)
    (hp : env.uuidParse = scenarioEnv.uuidParse) (hv : env.queryVod = scenarioEnv.queryVod)
    (hc : env.queryConfig = scenarioEnv.queryConfig) :
    AlreadyCompleted env completedStore "vod-1" :=
  ⟨"vod-1", scenarioVod, scenarioConfig, completedRecord, by rw [hp]; rfl, by rw [hv]; rfl,
    by rw [hc]; rfl, rfl, rfl, rfl⟩

/-- C8 at a concrete input: the video `"vod-1"` is already uploaded; two runs,
the second one with collaborators that would reject the upload, change nothing. -/
theorem UploadVideo_completed_noop_witness :
    (UploadVideo asciiTable scenarioEnv completedStore "vod-1").err = none ∧
    (UploadVideo asciiTable scenarioEnv completedStore "vod-1").calls = [] ∧
    (UploadVideo asciiTable scenarioEnv completedStore "vod-1").store = completedStore ∧
    (UploadVideo asciiTable rejectedEnv
      (UploadVideo asciiTable scenarioEnv completedStore "vod-1").store "vod-1").err = none ∧
    (UploadVideo asciiTable rejectedEnv
      (UploadVideo asciiTable scenarioEnv completedStore "vod-1").store "vod-1").calls = [] ∧
    (UploadVideo asciiTable rejectedEnv
      (UploadVideo asciiTable scenarioEnv completedStore "vod-1").store "vod-1").store =
        completedStore :=
  UploadVideo_completed_noop asciiTable scenarioEnv rejectedEnv completedStore "vod-1"
    (completedStore_alreadyCompleted scenarioEnv rfl rfl rfl)
    (completedStore_alreadyCompleted rejectedEnv rfl rfl rfl)


/-- The record a run works on once the write of `uploading` went through. -/
theorem UploadVideo.run_reaches_upload (u : CaseTable) (env : Env) (σ : Store)
    (vodUUID : String) (vod : Vod) (config : YoutubeConfig) (r : YoutubeUpload)
    (h : (UploadVideo.run u env σ vodUUID vod config r).calls.any Call.isVideosInsert = true) :
    ∃ σ1 cs, σ1.uploads vodUUID =
        some { r with Status := "uploading", UpdatedAt := env.now } ∧
      (∀ k, k ≠ vodUUID → σ1.uploads k = σ.uploads k) ∧
      (∀ c ∈ cs, Call.isVideosInsert c = false ∧ Call.isEnhancement c = false) ∧
      UploadVideo.run u env σ vodUUID vod config r =
        (UploadVideo.transfer u env σ1 vodUUID vod config
          { r with Status := "uploading", UpdatedAt := env.now }).after cs [] := by
  unfold UploadVideo.run at h ⊢
  cases hsu : env.saveUploading with
  | some e => simp [hsu] at h
  | none =>
    simp only [hsu] at h ⊢
    have hup := getYouTubeClient_uploads env
      (σ.setUpload vodUUID { r with Status := "uploading", UpdatedAt := env.now })
    have hcs := getYouTubeClient_calls env
      (σ.setUpload vodUUID { r with Status := "uploading", UpdatedAt := env.now })
    rcases hgc : getYouTubeClient env
      (σ.setUpload vodUUID { r with Status := "uploading", UpdatedAt := env.now })
      with ⟨res, σ1, cs⟩
    rw [hgc] at h hup hcs
    simp only at hup hcs
    cases res with
    | error e =>
      exfalso
      simp only [List.any_cons, Call.isVideosInsert, Bool.false_or, List.any_eq_true] at h
      obtain ⟨c, hc, hci⟩ := h
      rw [hcs c hc] at hci
      simp [Call.isVideosInsert] at hci
    | ok tok =>
      refine ⟨σ1, Call.getYouTubeClient :: cs, ?_, ?_, ?_, rfl⟩
      · rw [hup]
        exact Store.setUpload_same _ _ _
      · intro k hk
        rw [hup]
        simp [Store.setUpload, hk]
      · intro c hc
        rcases List.mem_cons.mp hc with hc | hc
        · subst hc
          exact ⟨rfl, rfl⟩
        · rw [hcs c hc]
          exact ⟨rfl, rfl⟩

/-- A run that makes the upload call has loaded the video and its configuration
and works on the record found (or created) for the video, now `uploading`. -/
theorem UploadVideo_reaches_upload (u : CaseTable) (env : Env) (σ : Store) (vodID : String)
    (h : (UploadVideo u env σ vodID).calls.any Call.isVideosInsert = true) :
    ∃ vodUUID vod config r σ1 cs logs,
      env.uuidParse vodID = .ok vodUUID ∧ env.queryVod vodUUID = .ok vod ∧
      env.queryConfig vod = .ok config ∧
      r.Status = "uploading" ∧ r.RetryCount = σ.retryCount vodUUID ∧
      σ1.uploads vodUUID = some r ∧
      (∀ k, k ≠ vodUUID → σ1.uploads k = σ.uploads k) ∧
      (∀ c ∈ cs, Call.isVideosInsert c = false ∧ Call.isEnhancement c = false) ∧
      UploadVideo u env σ vodID =
        (UploadVideo.transfer u env σ1 vodUUID vod config r).after cs logs := by
  unfold UploadVideo UploadVideo.body at h ⊢
  cases hp : env.uuidParse vodID with
  | error e => simp [hp, Outcome.after] at h
  | ok vodUUID =>
    cases hv : env.queryVod vodUUID with
    | error e => simp [hp, hv, Outcome.after] at h
    | ok vod =>
      cases hc : env.queryConfig vod with
      | error e => simp [hp, hv, hc, Outcome.after] at h
      | ok config =>
        simp only [hp, hv, hc] at h ⊢
        by_cases hen : config.UploadEnabled = true
        · simp only [hen, Bool.not_true, Bool.false_eq_true, if_false] at h ⊢
          cases hr : σ.uploads vodUUID with
          | some r0 =>
            simp only [hr] at h ⊢
            by_cases hst : r0.Status = "completed"
            · simp [hst, Outcome.after] at h
            · simp only [hst, if_false] at h ⊢
              rw [Outcome.after_calls, List.nil_append] at h
              obtain ⟨σ1, cs, h1, h2, h3, h4⟩ :=
                UploadVideo.run_reaches_upload u env σ vodUUID vod config r0 h
              refine ⟨vodUUID, vod, config, _, σ1, cs, [⟨"info", "starting YouTube upload", []⟩], rfl, hv, hc, rfl, ?_, h1, h2, h3, ?_⟩
              · simp [Store.retryCount, hr]
              · rw [h4]
                simp [Outcome.after]
          | none =>
            simp only [hr] at h ⊢
            cases hcu : env.createUpload with
            | some e => simp [hcu, Outcome.after] at h
            | none =>
              simp only [hcu] at h ⊢
              rw [Outcome.after_calls, List.nil_append] at h
              obtain ⟨σ1, cs, h1, h2, h3, h4⟩ :=
                UploadVideo.run_reaches_upload u env _ vodUUID vod config _ h
              refine ⟨vodUUID, vod, config, _, σ1, cs, [⟨"info", "starting YouTube upload", []⟩], rfl, hv, hc, rfl, ?_, h1, ?_, h3, ?_⟩
              · simp [Store.retryCount, hr, YoutubeUpload.pending]
              · intro k hk
                rw [h2 k hk]
                simp [Store.setUpload, hk]
              · rw [h4]
                simp [Outcome.after]
        · simp [hen, Outcome.after] at h


theorem any_isVideosInsert_append (cs ds : List Call)
    (hcs : ∀ c ∈ cs, Call.isVideosInsert c = false ∧ Call.isEnhancement c = false)
    (h : (cs ++ ds).any Call.isVideosInsert = true) :
    ds.any Call.isVideosInsert = true := by
  rw [List.any_append, Bool.or_eq_true] at h
  rcases h with h | h
  · obtain ⟨c, hc, hci⟩ := List.any_eq_true.mp h
    rw [(hcs c hc).1] at hci
    exact absurd hci Bool.false_ne_true
  · exact h

theorem UploadVideo.transfer_openFile (u : CaseTable) (env : Env) (σ : Store)
    (vodUUID : String) (vod : Vod) (config : YoutubeConfig) (r : YoutubeUpload)
    (h : (UploadVideo.transfer u env σ vodUUID vod config r).calls.any
      Call.isVideosInsert = true) :
    env.openFile = none := by
  cases ho : env.openFile with
  | none => rfl
  | some e => simp [UploadVideo.transfer, ho, Call.isVideosInsert] at h

theorem upload_failed_ne_empty (e : String) : "upload failed: " ++ e ≠ "" := by
  intro h
  have hlen := congrArg String.length h
  have h15 : "upload failed: ".length = 15 := by decide
  have h0 : "".length = 0 := by decide
  rw [String.length_append, h15, h0] at hlen
  omega

/-- A run that makes the upload call works on the record found or created for
the video, with its status set to `uploading`. -/
theorem UploadVideo_reaches_upload_record (u : CaseTable) (env : Env) (σ : Store)
    (vodID : String)
    (h : (UploadVideo u env σ vodID).calls.any Call.isVideosInsert = true) :
    ∃ vodUUID vod config σ1 cs logs,
      env.uuidParse vodID = .ok vodUUID ∧
      σ1.uploads vodUUID = some { σ.recordBefore vodUUID env.now with
        Status := "uploading", UpdatedAt := env.now } ∧
      (∀ c ∈ cs, Call.isVideosInsert c = false ∧ Call.isEnhancement c = false) ∧
      UploadVideo u env σ vodID =
        (UploadVideo.transfer u env σ1 vodUUID vod config
          { σ.recordBefore vodUUID env.now with
            Status := "uploading", UpdatedAt := env.now }).after cs logs := by
  unfold UploadVideo UploadVideo.body at h ⊢
  cases hp : env.uuidParse vodID with
  | error e => simp [hp, Outcome.after] at h
  | ok vodUUID =>
    cases hv : env.queryVod vodUUID with
    | error e => simp [hp, hv, Outcome.after] at h
    | ok vod =>
      cases hc : env.queryConfig vod with
      | error e => simp [hp, hv, hc, Outcome.after] at h
      | ok config =>
        simp only [hp, hv, hc] at h ⊢
        by_cases hen : config.UploadEnabled = true
        · simp only [hen, Bool.not_true, Bool.false_eq_true, if_false] at h ⊢
          cases hr : σ.uploads vodUUID with
          | some r0 =>
            simp only [hr] at h ⊢
            by_cases hst : r0.Status = "completed"
            · simp [hst, Outcome.after] at h
            · simp only [hst, if_false] at h ⊢
              rw [Outcome.after_calls, List.nil_append] at h
              obtain ⟨σ1, cs, h1, _, h3, h4⟩ :=
                UploadVideo.run_reaches_upload u env σ vodUUID vod config r0 h
              have hrb : σ.recordBefore vodUUID env.now = r0 := by
                simp [Store.recordBefore, hr]
              refine ⟨vodUUID, vod, config, σ1, cs,
                [⟨"info", "starting YouTube upload", []⟩], rfl, ?_, h3, ?_⟩
              · rw [hrb]
                exact h1
              · rw [h4, hrb]
                simp [Outcome.after]
          | none =>
            simp only [hr] at h ⊢
            cases hcu : env.createUpload with
            | some e => simp [hcu, Outcome.after] at h
            | none =>
              simp only [hcu] at h ⊢
              rw [Outcome.after_calls, List.nil_append] at h
              obtain ⟨σ1, cs, h1, _, h3, h4⟩ :=
                UploadVideo.run_reaches_upload u env _ vodUUID vod config _ h
              have hrb : σ.recordBefore vodUUID env.now = YoutubeUpload.pending env.now := by
                simp [Store.recordBefore, hr]
              refine ⟨vodUUID, vod, config, σ1, cs,
                [⟨"info", "starting YouTube upload", []⟩], rfl, ?_, h3, ?_⟩
              · rw [hrb]
                exact h1
              · rw [h4, hrb]
                simp [Outcome.after]
        · simp [hen, Outcome.after] at h

theorem Store.retryCount_eq (σ : Store) (vodUUID : String) (now : Time) :
    (σ.recordBefore vodUUID now).RetryCount = σ.retryCount vodUUID := by
  unfold Store.recordBefore Store.retryCount
  cases σ.uploads vodUUID <;> rfl

theorem wrapInt64_succ (x : Int) (h0 : -2 ^ 63 ≤ x) (h1 : x < 2 ^ 63 - 1) :
    wrapInt64 (x + 1) = x + 1 := by
  unfold wrapInt64
  have e63 : (2 : Int) ^ 63 = 9223372036854775808 := by norm_num
  have e64 : (2 : Int) ^ 64 = 18446744073709551616 := by norm_num
  rw [e63] at h0 h1 ⊢
  rw [e64]
  omega

/-- C9 (amended): in every run in which the upload call is made and fails,
`UploadVideo` returns the error, makes no chapter update or playlist add and
writes no completion (the record is not `completed` and keeps its video id, URL,
upload time and playlist ids). When the write that records the failure goes
through, the record ends with status `failed`, a non-empty error message and
the retry count the Go addition `RetryCount + 1` gives: one above the value
before the run, unless that value is the largest `int`, where it wraps. When
that write fails (its error is not checked) the record stays `uploading` with
the retry count unchanged. -/
theorem UploadVideo_upload_failed (u : CaseTable) (env : Env) (σ : Store)
    (vodID e : String) (hfail : env.videosInsert = .error e)
    (hcall : (UploadVideo u env σ vodID).calls.any Call.isVideosInsert = true) :
    (UploadVideo u env σ vodID).err = some ("upload failed: " ++ e) ∧
    (UploadVideo u env σ vodID).calls.all (fun c => !Call.isEnhancement c) = true ∧
    ∃ vodUUID r, env.uuidParse vodID = .ok vodUUID ∧
      (UploadVideo u env σ vodID).store.uploads vodUUID = some r ∧
      (r.Status ≠ "completed" ∧
        r.YoutubeVideoID = (σ.recordBefore vodUUID env.now).YoutubeVideoID ∧
        r.YoutubeURL = (σ.recordBefore vodUUID env.now).YoutubeURL ∧
        r.UploadedAt = (σ.recordBefore vodUUID env.now).UploadedAt ∧
        r.PlaylistIds = (σ.recordBefore vodUUID env.now).PlaylistIds) ∧
      (env.saveFailed = none →
        r.Status = "failed" ∧
        r.RetryCount = wrapInt64 (σ.retryCount vodUUID + 1) ∧
        (-2 ^ 63 ≤ σ.retryCount vodUUID → σ.retryCount vodUUID < 2 ^ 63 - 1 →
          r.RetryCount = σ.retryCount vodUUID + 1) ∧
        r.ErrorMessage ≠ "" ∧ r.ErrorMessage = "upload failed: " ++ e) ∧
      (env.saveFailed ≠ none →
        r.Status = "uploading" ∧ r.RetryCount = σ.retryCount vodUUID) := by
  obtain ⟨vodUUID, vod, config, σ1, cs, logs, hp, hσ1, hcs, heq⟩ :=
    UploadVideo_reaches_upload_record u env σ vodID hcall
  have hrc := Store.retryCount_eq σ vodUUID env.now
  set r0 := σ.recordBefore vodUUID env.now with hr0
  rw [heq, Outcome.after_calls] at hcall
  have hcall2 := any_isVideosInsert_append _ _ hcs hcall
  have ho := UploadVideo.transfer_openFile u env σ1 vodUUID vod config _ hcall2
  have hfc : ("failed" : String) ≠ "completed" := by decide
  have huc : ("uploading" : String) ≠ "completed" := by decide
  rw [heq]
  refine ⟨?_, ?_, vodUUID, ?_⟩
  · simp [Outcome.after, UploadVideo.transfer, ho, hfail]
  · rw [Outcome.after_calls, List.all_append, Bool.and_eq_true]
    constructor
    · rw [List.all_eq_true]
      intro c hc
      simp [(hcs c hc).2]
    · simp [UploadVideo.transfer, ho, hfail, Call.isEnhancement]
  · cases hsf : env.saveFailed with
    | none =>
      let r1 : YoutubeUpload :=
        { r0 with
          Status := "failed"
          ErrorMessage := "upload failed: " ++ e
          RetryCount := wrapInt64 (r0.RetryCount + 1)
          UpdatedAt := env.now }
      refine ⟨r1, hp, ?_, ⟨hfc, rfl, rfl, rfl, rfl⟩, ?_, ?_⟩
      · simp only [Outcome.after, UploadVideo.transfer, ho, hfail, hsf]
        exact Store.setUpload_same _ _ _
      · intro _
        refine ⟨rfl, ?_, ?_, upload_failed_ne_empty e, rfl⟩
        · show wrapInt64 (r0.RetryCount + 1) = _
          rw [hrc]
        · intro h0 h1
          show wrapInt64 (r0.RetryCount + 1) = _
          rw [hrc]
          exact wrapInt64_succ _ h0 h1
      · intro hne
        exact absurd rfl hne
    | some e2 =>
      let r1 : YoutubeUpload :=
        { r0 with
          Status := "uploading"
          UpdatedAt := env.now }
      refine ⟨r1, hp, ?_, ⟨huc, rfl, rfl, rfl, rfl⟩, ?_, ?_⟩
      · simp only [Outcome.after, UploadVideo.transfer, ho, hfail, hsf]
        exact hσ1
      · intro hn
        exact absurd hn (by simp)
      · intro _
        exact ⟨rfl, hrc⟩

/-- C9 (amended) at a concrete input: the upload of `"vod-1"` is rejected and the
failure is recorded, with retry count 0 + 1. -/
theorem UploadVideo_upload_failed_witness :
    (UploadVideo asciiTable rejectedEnv scenarioStore "vod-1").err =
      some ("upload failed: " ++ "quotaExceeded") ∧
    ((UploadVideo asciiTable rejectedEnv scenarioStore "vod-1").store.uploads "vod-1").map
      (fun r => (r.Status, r.RetryCount)) = some ("failed", 1) ∧
    ∃ r, (UploadVideo asciiTable rejectedEnv scenarioStore "vod-1").store.uploads "vod-1" =
        some r ∧ r.RetryCount = scenarioStore.retryCount "vod-1" + 1 :=
  have h := UploadVideo_upload_failed asciiTable rejectedEnv scenarioStore "vod-1"
    "quotaExceeded" rfl (by decide)
  ⟨h.1, by decide,
    match h.2.2 with
    | ⟨vodUUID, r, hp, hr, _, hok, _⟩ => by
      have hv : vodUUID = "vod-1" := by
        have hp2 : (Except.ok "vod-1" : Except String String) = Except.ok vodUUID := hp
        injection hp2 with hp2
        exact hp2.symm
      subst hv
      exact ⟨r, hr, (hok rfl).2.2.1 (by decide) (by decide)⟩⟩

/-- C9 as stated fails, in two ways. The upload call is made and rejected and the
write that should record the failure fails too: the record is left with status
`uploading`, retry count 0 and an empty error message. And with the write going
through but a retry count of 9223372036854775807 before the run, the retry count
after the run is -9223372036854775808, not the previous value plus 1. -/
theorem UploadVideo_failure_write_lost :
    (lostWriteEnv.videosInsert = .error "quotaExceeded" ∧
      (UploadVideo asciiTable lostWriteEnv scenarioStore "vod-1").calls.any
        Call.isVideosInsert = true ∧
      ((UploadVideo asciiTable lostWriteEnv scenarioStore "vod-1").store.uploads "vod-1").map
        (fun r => (r.Status, r.RetryCount, r.ErrorMessage)) = some ("uploading", 0, "")) ∧
    (rejectedEnv.videosInsert = .error "quotaExceeded" ∧
      (UploadVideo asciiTable rejectedEnv maxRetryStore "vod-1").calls.any
        Call.isVideosInsert = true ∧
      maxRetryStore.retryCount "vod-1" = 9223372036854775807 ∧
      ((UploadVideo asciiTable rejectedEnv maxRetryStore "vod-1").store.uploads "vod-1").map
        (fun r => (r.Status, r.RetryCount)) = some ("failed", -9223372036854775808)) := by
  refine ⟨⟨rfl, ?_, ?_⟩, ⟨rfl, ?_, ?_, ?_⟩⟩ <;> decide

/-- C10: in every run in which the upload call is made and succeeds with remote
id `V`, and the final write succeeds, `UploadVideo` returns success and the
upload record ends with status `completed`, video id `V`, the watch URL of `V`
and the full output of `matchPlaylists` as its playlist ids, whatever the
answers to the playlist adds. -/
theorem UploadVideo_upload_succeeded (u : CaseTable) (env : Env) (σ : Store)
    (vodID V : String) (hok : env.videosInsert = .ok V)
    (hcall : (UploadVideo u env σ vodID).calls.any Call.isVideosInsert = true)
    (hsave : env.saveCompleted = none) :
    (UploadVideo u env σ vodID).err = none ∧
    ∃ vodUUID vod config r, env.uuidParse vodID = .ok vodUUID ∧
      env.queryVod vodUUID = .ok vod ∧ env.queryConfig vod = .ok config ∧
      (UploadVideo u env σ vodID).store.uploads vodUUID = some r ∧
      r.Status = "completed" ∧ r.YoutubeVideoID = V ∧
      r.YoutubeURL = "https://www.youtube.com/watch?v=" ++ V ∧
      r.PlaylistIds = matchPlaylists u config vod := by
  obtain ⟨vodUUID, vod, config, r, σ1, cs, logs, hp, hv, hc, _, _, _, _, hcs, heq⟩ :=
    UploadVideo_reaches_upload u env σ vodID hcall
  rw [heq, Outcome.after_calls] at hcall
  have hcall2 := any_isVideosInsert_append _ _ hcs hcall
  have ho := UploadVideo.transfer_openFile u env σ1 vodUUID vod config r hcall2
  rw [heq]
  refine ⟨?_, vodUUID, vod, config, ?_⟩
  · simp [Outcome.after, UploadVideo.transfer, UploadVideo.finish, ho, hok, hsave]
  · let r1 : YoutubeUpload :=
      { r with
        YoutubeVideoID := V
        YoutubeURL := "https://www.youtube.com/watch?v=" ++ V
        Status := "completed"
        UploadedAt := some env.now
        PlaylistIds := matchPlaylists u config vod
        UpdatedAt := env.now }
    refine ⟨r1, hp, hv, hc, ?_, ?_⟩
    · simp only [Outcome.after, UploadVideo.transfer, UploadVideo.finish, ho, hok, hsave]
      exact Store.setUpload_same _ _ _
    · exact ⟨rfl, rfl, rfl, rfl⟩

/-- C10 at a concrete input: the upload of `"vod-1"` succeeds with id `"yt123"`, the
add to the first playlist is rejected, and both playlists are recorded. -/
theorem UploadVideo_upload_succeeded_witness :
    (UploadVideo asciiTable firstAddRejectedEnv scenarioStore "vod-1").err = none ∧
    ((UploadVideo asciiTable firstAddRejectedEnv scenarioStore "vod-1").store.uploads
      "vod-1").map (fun r => (r.Status, r.YoutubeVideoID, r.YoutubeURL, r.PlaylistIds)) =
      some ("completed", "yt123", "https://www.youtube.com/watch?v=yt123", ["PL1", "PL2"]) ∧
    (UploadVideo asciiTable firstAddRejectedEnv scenarioStore "vod-1").logs.filter
      (fun l => l.level == "warn") =
      [⟨"warn", "failed to add video to playlist",
        [("error", "playlistForbidden"), ("playlist_id", "PL1")]⟩] :=
  ⟨(UploadVideo_upload_succeeded asciiTable firstAddRejectedEnv scenarioStore "vod-1" "yt123"
      rfl (by decide) rfl).1, by decide, by decide⟩


/-! ## Formatting: lemmas and checked properties -/

theorem fmt.d_natCast (k : Nat) : fmt.d (k : Int) = decimal k := rfl

theorem fmt.d02_natCast (k : Nat) (hk : k < 60) : fmt.d02 (k : Int) = pad2 k := by
  interval_cases k <;> rfl

/-- The three fields Go computes from a non-negative number of seconds are the
natural-number quotients and remainders. -/
theorem clock_fields (n : Nat) :
    (n : Int).tdiv 3600 = ((n / 3600 : Nat) : Int) ∧
    ((n : Int).tmod 3600).tdiv 60 = ((n % 3600 / 60 : Nat) : Int) ∧
    (n : Int).tmod 60 = ((n % 60 : Nat) : Int) := by
  refine ⟨?_, ?_, ?_⟩
  · exact (Int.ofNat_tdiv n 3600).symm
  · have h1 : (n : Int).tmod 3600 = ((n % 3600 : Nat) : Int) := (Int.ofNat_tmod n 3600).symm
    rw [h1]
    exact (Int.ofNat_tdiv (n % 3600) 60).symm
  · exact (Int.ofNat_tmod n 60).symm

theorem formatTimestamp_natCast (n : Nat) : formatTimestamp (n : Int) = specTimestamp n := by
  obtain ⟨h1, h2, h3⟩ := clock_fields n
  have hm : n % 3600 / 60 < 60 := by omega
  have hs : n % 60 < 60 := by omega
  unfold formatTimestamp specTimestamp
  simp only [h1, h2, h3, fmt.d_natCast, fmt.d02_natCast _ hm, fmt.d02_natCast _ hs]
  by_cases hge : n ≥ 3600
  · have hpos : ((n / 3600 : Nat) : Int) > 0 := by
      have : n / 3600 ≥ 1 := by omega
      omega
    rw [if_pos hpos, if_pos hge]
  · have hnpos : ¬ ((n / 3600 : Nat) : Int) > 0 := by
      have : n / 3600 = 0 := by omega
      omega
    rw [if_neg hnpos, if_neg hge]

/-- C16: for every `seconds ≥ 0`, `formatTimestamp seconds` is
`decimal h : pad2 m : pad2 s` from 3600 seconds on and `decimal m : pad2 s`
below, with `h`, `m`, `s` the hours, minutes and seconds of the input;
`formatTimestamp 3725 = "1:02:05"` and `formatTimestamp 65 = "1:05"`. -/
theorem formatTimestamp_spec (seconds : Int) (h : 0 ≤ seconds) :
    formatTimestamp seconds = specTimestamp seconds.toNat ∧
    formatTimestamp 3725 = "1:02:05" ∧ formatTimestamp 65 = "1:05" := by
  refine ⟨?_, by decide, by decide⟩
  obtain ⟨n, rfl⟩ := Int.eq_ofNat_of_zero_le h
  rw [Int.toNat_natCast]
  exact formatTimestamp_natCast n

/-- C16 at a concrete input: 36 000 seconds, where the hours take two digits. -/
theorem formatTimestamp_spec_witness :
    formatTimestamp 36000 = specTimestamp 36000 ∧ specTimestamp 36000 = "10:00:00" ∧
    formatTimestamp 3725 = "1:02:05" ∧ formatTimestamp 65 = "1:05" :=
  ⟨(formatTimestamp_spec 36000 (by decide)).1, by decide,
    (formatTimestamp_spec 36000 (by decide)).2⟩

theorem formatDuration_natCast (n : Nat) : formatDuration (n : Int) = specDuration n := by
  obtain ⟨h1, h2, h3⟩ := clock_fields n
  unfold formatDuration specDuration
  simp only [h1, h2, h3, fmt.d_natCast]
  by_cases hge : n ≥ 3600
  · have hpos : ((n / 3600 : Nat) : Int) > 0 := by
      have : n / 3600 ≥ 1 := by omega
      omega
    rw [if_pos hpos, if_pos hge]
  · have hnpos : ¬ ((n / 3600 : Nat) : Int) > 0 := by
      have : n / 3600 = 0 := by omega
      omega
    rw [if_neg hnpos, if_neg hge]

/-- C17: for every `seconds ≥ 0`, `formatDuration seconds` is
`"<h>h <m>m <s>s"` from 3600 seconds on and `"<m>m <s>s"` below, in unpadded
decimals; the displayed numbers recompose the input, with `m < 60` and
`s < 60`; `formatDuration 3661 = "1h 1m 1s"` and `formatDuration 125 = "2m 5s"`. -/
theorem formatDuration_spec (seconds : Int) (h : 0 ≤ seconds) :
    formatDuration seconds = specDuration seconds.toNat ∧
    (seconds.tdiv 3600 * 3600 + (seconds.tmod 3600).tdiv 60 * 60 + seconds.tmod 60 = seconds ∧
      (seconds.tmod 3600).tdiv 60 < 60 ∧ seconds.tmod 60 < 60) ∧
    formatDuration 3661 = "1h 1m 1s" ∧ formatDuration 125 = "2m 5s" := by
  refine ⟨?_, ?_, by decide, by decide⟩
  · obtain ⟨n, rfl⟩ := Int.eq_ofNat_of_zero_le h
    rw [Int.toNat_natCast]
    exact formatDuration_natCast n
  · obtain ⟨n, rfl⟩ := Int.eq_ofNat_of_zero_le h
    obtain ⟨h1, h2, h3⟩ := clock_fields n
    rw [h1, h2, h3]
    refine ⟨?_, ?_, ?_⟩ <;> omega

/-- C17 at a concrete input: 86 399 seconds, one second short of a day. -/
theorem formatDuration_spec_witness :
    formatDuration 86399 = specDuration 86399 ∧ specDuration 86399 = "23h 59m 59s" ∧
    formatDuration 3661 = "1h 1m 1s" ∧ formatDuration 125 = "2m 5s" :=
  ⟨(formatDuration_spec 86399 (by decide)).1, by decide,
    (formatDuration_spec 86399 (by decide)).2.2⟩


theorem foldl_append_lines (f : Chapter → String) (cs : List Chapter) (acc : String) :
    cs.foldl (fun sb chapter => sb ++ f chapter) acc = acc ++ String.join (cs.map f) := by
  induction cs generalizing acc with
  | nil => simp [String.join]
  | cons c cs ih =>
    rw [List.foldl_cons, ih, List.map_cons]
    have hj : ∀ (l : List String) (a : String),
        l.foldl (fun r s => r ++ s) a = a ++ l.foldl (fun r s => r ++ s) "" := by
      intro l
      induction l with
      | nil => intro a; simp
      | cons x xs ihx =>
        intro a
        rw [List.foldl_cons, List.foldl_cons, ihx (a ++ x), ihx ("" ++ x)]
        simp [String.append_assoc]
    unfold String.join
    rw [List.foldl_cons, hj _ ("" ++ f c)]
    simp [String.append_assoc]

theorem buildChapterDescription.line_eq (chapter : Chapter) :
    buildChapterDescription.line chapter =
      formatTimestamp chapter.Start ++ " - " ++
        (if chapter.Title ≠ "" then chapter.Title else chapter.Type_) ++ "\n" := by
  unfold buildChapterDescription.line
  by_cases h : chapter.Title = ""
  · simp [h]
  · simp [h]

/-- C18: `buildChapterDescription` gives the empty string for no chapters and
otherwise `"Chapters:\n"` followed, for each chapter in input order, by its
timestamp, `" - "`, its label (the title if non-empty, else the type) and a line
break. -/
theorem buildChapterDescription_spec (cs : List Chapter) :
    buildChapterDescription cs = specChapterBlock cs ∧
    buildChapterDescription [] = "" ∧
    buildChapterDescription [⟨0, "Just Chatting", ""⟩, ⟨3725, "Valorant", "Ranked"⟩] =
      "Chapters:\n0:00 - Just Chatting\n1:02:05 - Ranked\n" := by
  refine ⟨?_, by decide, by decide⟩
  unfold buildChapterDescription specChapterBlock
  cases cs with
  | nil => rfl
  | cons c cs =>
    have hne : ¬ (c :: cs).length = 0 := by simp
    have hne2 : ¬ (c :: cs).isEmpty = true := by simp
    rw [if_neg hne, if_neg hne2, foldl_append_lines]
    congr 2
    apply List.map_congr_left
    intro ch _
    exact buildChapterDescription.line_eq ch

/-- C19: with an empty title template `formatTitle` returns the video's title
exactly, whatever it contains; the title `"Stream #42"` gives `"Stream #42"`. -/
theorem formatTitle_empty_template (config : YoutubeConfig) (vod : Vod)
    (h : config.TitleTemplate = "") :
    formatTitle config vod = vod.Title ∧
    formatTitle scenarioConfig scenarioVod = "Stream #42" := by
  constructor
  · unfold formatTitle
    rw [if_pos h]
  · decide

/-- C19 at a concrete input: a title made of placeholder-like text is returned
untouched. -/
theorem formatTitle_empty_template_witness :
    scenarioConfig.TitleTemplate = "" ∧
    formatTitle scenarioConfig placeholderTitleVod = "\x7bdate\x7d \x7bchannel\x7d" ∧
    formatTitle scenarioConfig scenarioVod = "Stream #42" :=
  ⟨rfl, formatTitle_empty_template scenarioConfig placeholderTitleVod rfl⟩

theorem strings.replaceRunes_of_not_infix (old new : List Char) (s : List Char)
    (h : ¬ old <:+: s) : strings.replaceRunes old new 0 s = s := by
  induction s with
  | nil => rfl
  | cons c cs ih =>
    unfold strings.replaceRunes
    have hp : old.isPrefixOf (c :: cs) = false := by
      cases hb : old.isPrefixOf (c :: cs) with
      | false => rfl
      | true => exact absurd (List.isPrefixOf_iff_prefix.mp hb).isInfix h
    have ht : ¬ old <:+: cs := fun hi => h (hi.trans (List.suffix_cons c cs).isInfix)
    simp only [hp, Bool.false_eq_true, if_false, ih ht]

theorem strings.ReplaceAll_of_not_occurs (s old new : String) (h : ¬ occursIn old s) :
    strings.ReplaceAll s old new = s := by
  unfold strings.ReplaceAll
  rw [strings.replaceRunes_of_not_infix _ _ _ h]

/-- C20: a non-empty title template that contains none of `{title}`, `{channel}`
and `{date}` is returned unchanged by `formatTitle`, for every video; the
template `"{duration}"` renders as the literal text `"{duration}"`. -/
theorem formatTitle_unmatched_literal (config : YoutubeConfig) (vod : Vod)
    (hne : config.TitleTemplate ≠ "")
    (h1 : ¬ occursIn "\x7btitle\x7d" config.TitleTemplate)
    (h2 : ¬ occursIn "\x7bchannel\x7d" config.TitleTemplate)
    (h3 : ¬ occursIn "\x7bdate\x7d" config.TitleTemplate) :
    formatTitle config vod = config.TitleTemplate ∧
    formatTitle { config with TitleTemplate := "\x7bduration\x7d" } vod =
      "\x7bduration\x7d" := by
  have key : ∀ t : String, t ≠ "" → ¬ occursIn "\x7btitle\x7d" t →
      ¬ occursIn "\x7bchannel\x7d" t → ¬ occursIn "\x7bdate\x7d" t →
      ∀ c : YoutubeConfig, c.TitleTemplate = t → formatTitle c vod = t := by
    intro t ht a1 a2 a3 c hc
    unfold formatTitle
    rw [hc, if_neg ht]
    simp only
    rw [strings.ReplaceAll_of_not_occurs _ _ _ a1, strings.ReplaceAll_of_not_occurs _ _ _ a2,
      strings.ReplaceAll_of_not_occurs _ _ _ a3]
  refine ⟨key _ hne h1 h2 h3 config rfl, ?_⟩
  exact key "\x7bduration\x7d" (by decide) (by unfold occursIn; decide)
    (by unfold occursIn; decide) (by unfold occursIn; decide) _ rfl

/-- C20 at a concrete input: the template `"VOD: {duration} {game}"` on the
scenario video. -/
theorem formatTitle_unmatched_literal_witness :
    formatTitle { scenarioConfig with TitleTemplate := "VOD: \x7bduration\x7d \x7bgame\x7d" }
        scenarioVod = "VOD: \x7bduration\x7d \x7bgame\x7d" ∧
    formatTitle { scenarioConfig with TitleTemplate := "\x7bduration\x7d" } scenarioVod =
      "\x7bduration\x7d" :=
  have h := formatTitle_unmatched_literal
    { scenarioConfig with TitleTemplate := "VOD: \x7bduration\x7d \x7bgame\x7d" } scenarioVod
    (by decide) (by unfold occursIn; decide) (by unfold occursIn; decide)
    (by unfold occursIn; decide)
  ⟨h.1, by decide⟩


/-! ## The upload state machine: further properties -/

/-- C15: when the channel configuration has uploads disabled, `UploadVideo`
returns success and changes nothing: the database is as before (no record
created, an existing record untouched) and no client is acquired or call
made. -/
theorem UploadVideo_disabled_noop (u : CaseTable) (env : Env) (σ : Store) (vodID : String)
    (h : UploadDisabled env vodID) :
    (UploadVideo u env σ vodID).err = none ∧
    (UploadVideo u env σ vodID).store = σ ∧
    (UploadVideo u env σ vodID).calls = [] := by
  obtain ⟨vodUUID, vod, config, hp, hv, hc, hen⟩ := h
  simp [UploadVideo, UploadVideo.body, Outcome.after, hp, hv, hc, hen]

/-- C15 at a concrete input: uploads are disabled for the channel of `"vod-1"`, once
with no upload record and once with a completed one. -/
theorem UploadVideo_disabled_noop_witness :
    ((UploadVideo asciiTable disabledEnv scenarioStore "vod-1").err = none ∧
      (UploadVideo asciiTable disabledEnv scenarioStore "vod-1").store = scenarioStore ∧
      (UploadVideo asciiTable disabledEnv scenarioStore "vod-1").calls = []) ∧
    ((UploadVideo asciiTable disabledEnv completedStore "vod-1").err = none ∧
      (UploadVideo asciiTable disabledEnv completedStore "vod-1").store = completedStore ∧
      (UploadVideo asciiTable disabledEnv completedStore "vod-1").calls = []) :=
  ⟨UploadVideo_disabled_noop asciiTable disabledEnv scenarioStore "vod-1"
      ⟨"vod-1", scenarioVod, _, rfl, rfl, rfl, rfl⟩,
    UploadVideo_disabled_noop asciiTable disabledEnv completedStore "vod-1"
      ⟨"vod-1", scenarioVod, _, rfl, rfl, rfl, rfl⟩⟩

/-- C12 (evaluation of the code): starting with no upload record (retry count
0), a run that fails to acquire the client and a run that fails to open the file
both leave the record `failed` with retry count 0, while a run whose upload call
is rejected leaves it `failed` with retry count 1. -/
theorem UploadVideo_failed_without_increment :
    scenarioStore.retryCount "vod-1" = 0 ∧
    ((UploadVideo asciiTable clientFailsEnv scenarioStore "vod-1").store.uploads "vod-1").map
      (fun r => (r.Status, r.RetryCount, r.ErrorMessage)) =
      some ("failed", 0, "failed to create YouTube service: dial tcp: i/o timeout") ∧
    ((UploadVideo asciiTable fileMissingEnv scenarioStore "vod-1").store.uploads "vod-1").map
      (fun r => (r.Status, r.RetryCount, r.ErrorMessage)) =
      some ("failed", 0,
        "failed to open video file: open /vods/42.mp4: no such file or directory") ∧
    ((UploadVideo asciiTable rejectedEnv scenarioStore "vod-1").store.uploads "vod-1").map
      (fun r => (r.Status, r.RetryCount, r.ErrorMessage)) =
      some ("failed", 1, "upload failed: quotaExceeded") := by
  refine ⟨?_, ?_, ?_, ?_⟩ <;> decide

theorem getYouTubeClient_result_congr (env : Env) (σ σ1 : Store)
    (h : σ1.credential = σ.credential) :
    (getYouTubeClient env σ1).1 = (getYouTubeClient env σ).1 := by
  unfold getYouTubeClient
  rw [h]
  cases env.queryCredential with
  | some e => rfl
  | none =>
    cases σ.credential with
    | none => rfl
    | some creds =>
      simp only
      split
      · cases env.refreshToken with
        | error e => rfl
        | ok t =>
          simp only
          cases env.saveCredential with
          | some e => rfl
          | none =>
            simp only
            cases env.newService <;> rfl
      · cases env.newService <;> rfl

theorem String.append_ne_empty_of_length (a b : String) (h : 0 < a.length) : a ++ b ≠ "" := by
  intro he
  have hl := congrArg String.length he
  have h0 : "".length = 0 := by decide
  rw [String.length_append, h0] at hl
  omega

/-- Every error of `getYouTubeClient` names the step that failed, so its text is
never empty. -/
theorem getYouTubeClient_error_ne_empty (env : Env) (σ : Store) (e : String)
    (h : (getYouTubeClient env σ).1 = .error e) : e ≠ "" := by
  unfold getYouTubeClient at h
  cases hq : env.queryCredential with
  | some e1 =>
    simp only [hq] at h
    injection h with h
    rw [← h]
    exact String.append_ne_empty_of_length _ _ (by decide)
  | none =>
    cases hc : σ.credential with
    | none =>
      simp only [hq, hc] at h
      injection h with h
      rw [← h]
      decide
    | some creds =>
      simp only [hq, hc] at h
      split at h
      · cases hr : env.refreshToken with
        | error e1 =>
          simp only [hr] at h
          injection h with h
          rw [← h]
          exact String.append_ne_empty_of_length _ _ (by decide)
        | ok t =>
          simp only [hr] at h
          cases hs : env.saveCredential with
          | some e1 =>
            simp only [hs] at h
            injection h with h
            rw [← h]
            exact String.append_ne_empty_of_length _ _ (by decide)
          | none =>
            simp only [hs] at h
            cases hn : env.newService with
            | some e1 =>
              simp only [hn] at h
              injection h with h
              rw [← h]
              exact String.append_ne_empty_of_length _ _ (by decide)
            | none => simp [hn] at h
      · cases hn : env.newService with
        | some e1 =>
          simp only [hn] at h
          injection h with h
          rw [← h]
          exact String.append_ne_empty_of_length _ _ (by decide)
        | none => simp [hn] at h

theorem occursIn_self (e : String) : occursIn e e := List.infix_refl _

theorem occursIn_append_right (a e : String) : occursIn e (a ++ e) := by
  unfold occursIn
  rw [String.data_append]
  exact (List.suffix_append _ _).isInfix


/-- A run that makes any call has loaded the video and its configuration and
entered the part from the write of `uploading` on, with the record found or
created for the video. -/
theorem UploadVideo_reaches_run (u : CaseTable) (env : Env) (σ : Store) (vodID : String)
    (h : (UploadVideo u env σ vodID).calls ≠ []) :
    ∃ vodUUID vod config r0 σ0,
      env.uuidParse vodID = .ok vodUUID ∧ env.queryVod vodUUID = .ok vod ∧
      env.queryConfig vod = .ok config ∧ config.UploadEnabled = true ∧
      σ0.credential = σ.credential ∧ σ0.uploads vodUUID = some r0 ∧
      UploadVideo u env σ vodID =
        (UploadVideo.run u env σ0 vodUUID vod config r0).after []
          [⟨"info", "starting YouTube upload", []⟩] := by
  unfold UploadVideo UploadVideo.body at h ⊢
  cases hp : env.uuidParse vodID with
  | error e => simp [hp, Outcome.after] at h
  | ok vodUUID =>
    cases hv : env.queryVod vodUUID with
    | error e => simp [hp, hv, Outcome.after] at h
    | ok vod =>
      cases hc : env.queryConfig vod with
      | error e => simp [hp, hv, hc, Outcome.after] at h
      | ok config =>
        simp only [hp, hv, hc] at h ⊢
        by_cases hen : config.UploadEnabled = true
        · simp only [hen, Bool.not_true, Bool.false_eq_true, if_false] at h ⊢
          cases hr : σ.uploads vodUUID with
          | some r0 =>
            simp only [hr] at h ⊢
            by_cases hst : r0.Status = "completed"
            · simp [hst, Outcome.after] at h
            · simp only [hst, if_false] at h ⊢
              exact ⟨vodUUID, vod, config, r0, σ, rfl, hv, hc, hen, rfl, hr, rfl⟩
          | none =>
            simp only [hr] at h ⊢
            cases hcu : env.createUpload with
            | some e => simp [hcu, Outcome.after] at h
            | none =>
              simp only [hcu] at h ⊢
              exact ⟨vodUUID, vod, config, YoutubeUpload.pending env.now,
                σ.setUpload vodUUID (YoutubeUpload.pending env.now), rfl, hv, hc, hen, rfl,
                Store.setUpload_same _ _ _, rfl⟩
        · simp [hen, Outcome.after] at h

theorem UploadVideo.run_failed_message (u : CaseTable) (env : Env) (σ0 : Store)
    (vodUUID : String) (vod : Vod) (config : YoutubeConfig) (r0 r : YoutubeUpload)
    (hne : (UploadVideo.run u env σ0 vodUUID vod config r0).calls ≠ [])
    (hr : (UploadVideo.run u env σ0 vodUUID vod config r0).store.uploads vodUUID = some r)
    (hf : r.Status = "failed") :
    r.ErrorMessage ≠ "" ∧
    ∃ e, failingStepError env σ0 = some e ∧ occursIn e r.ErrorMessage := by
  unfold UploadVideo.run at hne hr
  cases hsu : env.saveUploading with
  | some e => simp [hsu] at hne
  | none =>
    simp only [hsu] at hr
    have hup := getYouTubeClient_uploads env
      (σ0.setUpload vodUUID { r0 with Status := "uploading", UpdatedAt := env.now })
    have hres := getYouTubeClient_result_congr env σ0
      (σ0.setUpload vodUUID { r0 with Status := "uploading", UpdatedAt := env.now }) rfl
    have hemp := getYouTubeClient_error_ne_empty env
      (σ0.setUpload vodUUID { r0 with Status := "uploading", UpdatedAt := env.now })
    rcases hgc : getYouTubeClient env
      (σ0.setUpload vodUUID { r0 with Status := "uploading", UpdatedAt := env.now })
      with ⟨res, σ2, cs⟩
    rw [hgc] at hr hup hres hemp
    simp only at hup hres hemp
    have hrec : σ2.uploads vodUUID =
        some { r0 with Status := "uploading", UpdatedAt := env.now } := by
      rw [hup]
      exact Store.setUpload_same _ _ _
    have huploading : ∀ x : YoutubeUpload, σ2.uploads vodUUID = some x → x.Status ≠ "failed" := by
      intro x hx
      rw [hrec] at hx
      injection hx with hx
      rw [← hx]
      show "uploading" ≠ "failed"
      decide
    cases res with
    | error e =>
      simp only at hr
      cases hsf : env.saveFailed with
      | some e2 =>
        simp only [hsf] at hr
        exact absurd hf (huploading r hr)
      | none =>
        simp only [hsf, Store.setUpload_same] at hr
        injection hr with hr
        subst hr
        refine ⟨hemp e rfl, e, ?_, occursIn_self e⟩
        unfold failingStepError
        rw [← hres]
    | ok tok =>
      simp only [Outcome.after_store] at hr
      unfold UploadVideo.transfer at hr
      have hfse : failingStepError env σ0 =
          match env.openFile with
          | some e => some e
          | none =>
            match env.videosInsert with
            | .error e => some e
            | .ok _ => none := by
        unfold failingStepError
        rw [← hres]
      cases ho : env.openFile with
      | some e =>
        simp only [ho] at hr
        cases hsf : env.saveFailed with
        | some e2 =>
          simp only [hsf] at hr
          exact absurd hf (huploading r hr)
        | none =>
          simp only [hsf, Store.setUpload_same] at hr
          injection hr with hr
          subst hr
          refine ⟨String.append_ne_empty_of_length _ _ (by decide), e, ?_,
            occursIn_append_right _ e⟩
          rw [hfse, ho]
      | none =>
        simp only [ho] at hr
        cases hvi : env.videosInsert with
        | error e =>
          simp only [hvi] at hr
          cases hsf : env.saveFailed with
          | some e2 =>
            simp only [hsf] at hr
            exact absurd hf (huploading r hr)
          | none =>
            simp only [hsf, Store.setUpload_same] at hr
            injection hr with hr
            subst hr
            refine ⟨String.append_ne_empty_of_length _ _ (by decide), e, ?_,
              occursIn_append_right _ e⟩
            rw [hfse, ho, hvi]
        | ok V =>
          simp only [hvi, Outcome.after_store] at hr
          unfold UploadVideo.finish at hr
          cases hsc : env.saveCompleted with
          | some e2 =>
            simp only [hsc] at hr
            exact absurd hf (huploading r hr)
          | none =>
            simp only [hsc, Store.setUpload_same] at hr
            injection hr with hr
            subst hr
            have hc : ("completed" : String) ≠ "failed" := by decide
            exact absurd hf hc


theorem failingStepError_congr (env : Env) (σ σ1 : Store) (h : σ1.credential = σ.credential) :
    failingStepError env σ1 = failingStepError env σ := by
  unfold failingStepError
  rw [getYouTubeClient_result_congr env σ σ1 h]

/-- C13: whenever a run of `UploadVideo` that got as far as acquiring the client
leaves the upload record with status `failed` (the client could not be
acquired, the file could not be opened, or the upload call failed), the error
message it wrote is non-empty and contains the text of the failing step's
error. -/
theorem UploadVideo_failed_message (u : CaseTable) (env : Env) (σ : Store)
    (vodID vodUUID : String) (r : YoutubeUpload)
    (hp : env.uuidParse vodID = .ok vodUUID)
    (hrun : Call.getYouTubeClient ∈ (UploadVideo u env σ vodID).calls)
    (hr : (UploadVideo u env σ vodID).store.uploads vodUUID = some r)
    (hf : r.Status = "failed") :
    r.ErrorMessage ≠ "" ∧
    ∃ e, failingStepError env σ = some e ∧ occursIn e r.ErrorMessage := by
  have hne : (UploadVideo u env σ vodID).calls ≠ [] := List.ne_nil_of_mem hrun
  obtain ⟨vodUUID1, vod, config, r0, σ0, hp1, _, _, _, hcred, _, heq⟩ :=
    UploadVideo_reaches_run u env σ vodID hne
  rw [hp] at hp1
  injection hp1 with hp1
  subst hp1
  rw [heq, Outcome.after_calls, List.nil_append] at hne
  rw [heq, Outcome.after_store] at hr
  rw [← failingStepError_congr env σ σ0 hcred]
  exact UploadVideo.run_failed_message u env σ0 vodUUID vod config r0 r hne hr hf

/-- C13 at a concrete input: the file of `"vod-1"` cannot be opened. -/
theorem UploadVideo_failed_message_witness :
    ((UploadVideo asciiTable fileMissingEnv scenarioStore "vod-1").store.uploads "vod-1").map
      (fun r => (r.Status, r.ErrorMessage)) =
      some ("failed",
        "failed to open video file: open /vods/42.mp4: no such file or directory") ∧
    failingStepError fileMissingEnv scenarioStore =
      some "open /vods/42.mp4: no such file or directory" ∧
    ∀ r, (UploadVideo asciiTable fileMissingEnv scenarioStore "vod-1").store.uploads "vod-1" =
        some r → r.ErrorMessage ≠ "" :=
  ⟨by decide, by decide, fun r hr =>
    (UploadVideo_failed_message asciiTable fileMissingEnv scenarioStore "vod-1" "vod-1" r rfl
      (List.mem_cons_self _ _) hr
      (by
        have h2 := congrArg (Option.map (fun x => x.Status)) hr
        have h3 : Option.map (fun x => x.Status)
            ((UploadVideo asciiTable fileMissingEnv scenarioStore "vod-1").store.uploads
              "vod-1") = some "failed" := by decide
        rw [h3] at h2
        simpa using h2.symm)).1⟩


theorem Outcome.sameResult_after (calls : List Call) (logs logs2 : List LogLine)
    (a b : Outcome) (h : a.sameResult b) :
    (a.after calls logs).sameResult (b.after calls logs2) := by
  obtain ⟨h1, h2, h3⟩ := h
  exact ⟨h1, h2, by simp [Outcome.after, h3]⟩

theorem UploadVideo.addChapters_calls (env : Env) (upd : Option String)
    (adds : Nat → Option String) (config : YoutubeConfig) (vod : Vod)
    (title description videoID : String) :
    (UploadVideo.addChapters (env.withEnhancements upd adds) config vod title description
      videoID).1 =
    (UploadVideo.addChapters env config vod title description videoID).1 := by
  have hv : (env.withEnhancements upd adds).videosUpdate = upd := rfl
  unfold UploadVideo.addChapters
  rw [hv]
  by_cases h1 : (config.AddChapters && decide (vod.Chapters.length > 0)) = true
  · by_cases h2 : buildChapterDescription vod.Chapters ≠ ""
    · rw [if_pos h1, if_pos h1, if_pos h2, if_pos h2]
      cases upd <;> cases env.videosUpdate <;> rfl
    · rw [if_pos h1, if_pos h1, if_neg h2, if_neg h2]
  · rw [if_neg h1, if_neg h1]

theorem UploadVideo.addChapters_no_add (env : Env) (config : YoutubeConfig) (vod : Vod)
    (title description videoID : String) :
    (UploadVideo.addChapters env config vod title description videoID).1.filter
      Call.isPlaylistAdd = [] := by
  unfold UploadVideo.addChapters
  by_cases h1 : (config.AddChapters && decide (vod.Chapters.length > 0)) = true
  · by_cases h2 : buildChapterDescription vod.Chapters ≠ ""
    · rw [if_pos h1, if_pos h2]
      cases env.videosUpdate <;> rfl
    · rw [if_pos h1, if_neg h2]
      rfl
  · rw [if_neg h1]
    rfl

theorem UploadVideo.addToPlaylists_calls (env : Env) (videoID : String) (i : Nat)
    (ids : List String) :
    (UploadVideo.addToPlaylists env videoID i ids).1 =
      ids.map (Call.playlistItemsInsert videoID) := by
  induction ids generalizing i with
  | nil => rfl
  | cons p ps ih =>
    unfold UploadVideo.addToPlaylists
    simp only [List.map_cons, ih]

theorem filter_isPlaylistAdd_map (videoID : String) (ids : List String) :
    (ids.map (Call.playlistItemsInsert videoID)).filter Call.isPlaylistAdd =
      ids.map (Call.playlistItemsInsert videoID) := by
  induction ids with
  | nil => rfl
  | cons p ps ih => simp [List.filter_cons, Call.isPlaylistAdd, ih]

theorem UploadVideo.finish_sameResult (u : CaseTable) (env : Env) (upd : Option String)
    (adds : Nat → Option String) (σ : Store) (vodUUID : String) (vod : Vod)
    (config : YoutubeConfig) (r : YoutubeUpload) (title description V : String) :
    (UploadVideo.finish u (env.withEnhancements upd adds) σ vodUUID vod config r title
      description V).sameResult
    (UploadVideo.finish u env σ vodUUID vod config r title description V) := by
  unfold UploadVideo.finish
  simp only [UploadVideo.addChapters_calls, UploadVideo.addToPlaylists_calls]
  have hs : (env.withEnhancements upd adds).saveCompleted = env.saveCompleted := rfl
  have hn : (env.withEnhancements upd adds).now = env.now := rfl
  rw [hs, hn]
  cases env.saveCompleted with
  | some e => exact ⟨rfl, rfl, rfl⟩
  | none => exact ⟨rfl, rfl, rfl⟩

theorem UploadVideo.transfer_sameResult (u : CaseTable) (env : Env) (upd : Option String)
    (adds : Nat → Option String) (σ : Store) (vodUUID : String) (vod : Vod)
    (config : YoutubeConfig) (r : YoutubeUpload) :
    (UploadVideo.transfer u (env.withEnhancements upd adds) σ vodUUID vod config r).sameResult
    (UploadVideo.transfer u env σ vodUUID vod config r) := by
  unfold UploadVideo.transfer
  have h1 : (env.withEnhancements upd adds).openFile = env.openFile := rfl
  have h2 : (env.withEnhancements upd adds).saveFailed = env.saveFailed := rfl
  have h3 : (env.withEnhancements upd adds).videosInsert = env.videosInsert := rfl
  have h4 : (env.withEnhancements upd adds).now = env.now := rfl
  have h5 : (env.withEnhancements upd adds).filepathJoin = env.filepathJoin := rfl
  simp only [h1, h2, h3, h4, h5]
  cases env.openFile with
  | some e => exact ⟨rfl, rfl, rfl⟩
  | none =>
    cases env.videosInsert with
    | error e => exact ⟨rfl, rfl, rfl⟩
    | ok V =>
      exact Outcome.sameResult_after _ _ _ _ _
        (UploadVideo.finish_sameResult u env upd adds σ vodUUID vod config r _ _ V)

theorem UploadVideo.run_sameResult (u : CaseTable) (env : Env) (upd : Option String)
    (adds : Nat → Option String) (σ : Store) (vodUUID : String) (vod : Vod)
    (config : YoutubeConfig) (r : YoutubeUpload) :
    (UploadVideo.run u (env.withEnhancements upd adds) σ vodUUID vod config r).sameResult
    (UploadVideo.run u env σ vodUUID vod config r) := by
  unfold UploadVideo.run
  have h1 : (env.withEnhancements upd adds).saveUploading = env.saveUploading := rfl
  have h2 : (env.withEnhancements upd adds).saveFailed = env.saveFailed := rfl
  have h4 : (env.withEnhancements upd adds).now = env.now := rfl
  have h5 : ∀ s, getYouTubeClient (env.withEnhancements upd adds) s = getYouTubeClient env s :=
    fun _ => rfl
  simp only [h1, h2, h4, h5]
  cases env.saveUploading with
  | some e => exact ⟨rfl, rfl, rfl⟩
  | none =>
    simp only
    rcases getYouTubeClient env
      (σ.setUpload vodUUID { r with Status := "uploading", UpdatedAt := env.now })
      with ⟨res, σ2, cs⟩
    cases res with
    | error e => exact ⟨rfl, rfl, rfl⟩
    | ok tok =>
      exact Outcome.sameResult_after _ _ _ _ _
        (UploadVideo.transfer_sameResult u env upd adds σ2 vodUUID vod config _)

theorem UploadVideo_sameResult (u : CaseTable) (env : Env) (upd : Option String)
    (adds : Nat → Option String) (σ : Store) (vodID : String) :
    (UploadVideo u (env.withEnhancements upd adds) σ vodID).sameResult
    (UploadVideo u env σ vodID) := by
  unfold UploadVideo
  apply Outcome.sameResult_after
  unfold UploadVideo.body
  have h1 : (env.withEnhancements upd adds).uuidParse = env.uuidParse := rfl
  have h2 : (env.withEnhancements upd adds).queryVod = env.queryVod := rfl
  have h3 : (env.withEnhancements upd adds).queryConfig = env.queryConfig := rfl
  have h4 : (env.withEnhancements upd adds).createUpload = env.createUpload := rfl
  have h5 : (env.withEnhancements upd adds).now = env.now := rfl
  simp only [h1, h2, h3, h4, h5]
  cases hp : env.uuidParse vodID with
  | error e => exact ⟨rfl, rfl, rfl⟩
  | ok vodUUID =>
    simp only
    cases hv : env.queryVod vodUUID with
    | error e => exact ⟨rfl, rfl, rfl⟩
    | ok vod =>
      simp only
      cases hc : env.queryConfig vod with
      | error e => exact ⟨rfl, rfl, rfl⟩
      | ok config =>
        simp only
        by_cases hen : (!config.UploadEnabled) = true
        · rw [if_pos hen, if_pos hen]
          exact ⟨rfl, rfl, rfl⟩
        · rw [if_neg hen, if_neg hen]
          cases hr : σ.uploads vodUUID with
          | some r0 =>
            simp only
            by_cases hst : r0.Status = "completed"
            · rw [if_pos hst, if_pos hst]
              exact ⟨rfl, rfl, rfl⟩
            · rw [if_neg hst, if_neg hst]
              exact UploadVideo.run_sameResult u env upd adds σ vodUUID vod config r0
          | none =>
            simp only
            cases hcu : env.createUpload with
            | some e => exact ⟨rfl, rfl, rfl⟩
            | none => exact UploadVideo.run_sameResult u env upd adds _ vodUUID vod config _


theorem Call.isPlaylistAdd_of_not_enhancement (c : Call) (h : Call.isEnhancement c = false) :
    Call.isPlaylistAdd c = false := by
  cases c <;> simp_all [Call.isEnhancement, Call.isPlaylistAdd]

theorem filter_isPlaylistAdd_eq_nil (cs : List Call)
    (h : ∀ c ∈ cs, Call.isVideosInsert c = false ∧ Call.isEnhancement c = false) :
    cs.filter Call.isPlaylistAdd = [] := by
  rw [List.filter_eq_nil_iff]
  intro c hc
  rw [Call.isPlaylistAdd_of_not_enhancement c (h c hc).2]
  exact Bool.false_ne_true

/-- C11: after a successful transfer the outcome does not depend on the
enhancement steps. For any other answers `upd` of the chapter update and `adds`
of the playlist adds, the returned error, the database (so the final upload
record) and the calls made are the same; and the playlist adds made are one per
playlist id of `matchPlaylists`, in order, whichever of them fail. -/
theorem UploadVideo_enhancements_irrelevant (u : CaseTable) (env : Env) (σ : Store)
    (vodID V : String) (upd : Option String) (adds : Nat → Option String)
    (hok : env.videosInsert = .ok V)
    (hcall : (UploadVideo u env σ vodID).calls.any Call.isVideosInsert = true) :
    (UploadVideo u (env.withEnhancements upd adds) σ vodID).err =
        (UploadVideo u env σ vodID).err ∧
    (UploadVideo u (env.withEnhancements upd adds) σ vodID).store =
        (UploadVideo u env σ vodID).store ∧
    (UploadVideo u (env.withEnhancements upd adds) σ vodID).calls =
        (UploadVideo u env σ vodID).calls ∧
    ∃ vodUUID vod config, env.uuidParse vodID = .ok vodUUID ∧
      env.queryVod vodUUID = .ok vod ∧ env.queryConfig vod = .ok config ∧
      (UploadVideo u env σ vodID).calls.filter Call.isPlaylistAdd =
        (matchPlaylists u config vod).map (Call.playlistItemsInsert V) := by
  obtain ⟨s1, s2, s3⟩ := UploadVideo_sameResult u env upd adds σ vodID
  refine ⟨s1, s2, s3, ?_⟩
  obtain ⟨vodUUID, vod, config, r, σ1, cs, logs, hp, hv, hc, _, _, _, _, hcs, heq⟩ :=
    UploadVideo_reaches_upload u env σ vodID hcall
  rw [heq, Outcome.after_calls] at hcall
  have hcall2 := any_isVideosInsert_append _ _ hcs hcall
  have ho := UploadVideo.transfer_openFile u env σ1 vodUUID vod config r hcall2
  refine ⟨vodUUID, vod, config, hp, hv, hc, ?_⟩
  rw [heq, Outcome.after_calls, List.filter_append, filter_isPlaylistAdd_eq_nil cs hcs,
    List.nil_append]
  have htr : (UploadVideo.transfer u env σ1 vodUUID vod config r).calls =
      [Call.openFile (env.filepathJoin vod.VideoPath),
        Call.videosInsert
          { Id := "",
            Snippet := ⟨formatTitle config vod, formatDescription config vod,
              config.DefaultCategoryID, config.Tags⟩,
            PrivacyStatus := some config.DefaultPrivacy }
          (env.filepathJoin vod.VideoPath)
          (if !config.NotifySubscribers then some false else none)] ++
        ((UploadVideo.addChapters env config vod (formatTitle config vod)
            (formatDescription config vod) V).1 ++
          (UploadVideo.addToPlaylists env V 0 (matchPlaylists u config vod)).1) := by
    unfold UploadVideo.transfer
    simp only [ho, hok, Outcome.after_calls]
    unfold UploadVideo.finish
    cases env.saveCompleted <;> rfl
  rw [htr, List.filter_append, List.filter_append, UploadVideo.addChapters_no_add,
    UploadVideo.addToPlaylists_calls, filter_isPlaylistAdd_map]
  simp [List.filter_cons, Call.isPlaylistAdd]

/-- C11 at a concrete input: with the chapter update and both playlist adds
rejected, the upload of `"vod-1"` ends as when they all succeed, and both adds are
attempted, in order. -/
theorem UploadVideo_enhancements_irrelevant_witness :
    (UploadVideo asciiTable enhancementsRejectedEnv scenarioStore "vod-1").err =
      (UploadVideo asciiTable scenarioEnv scenarioStore "vod-1").err ∧
    (UploadVideo asciiTable enhancementsRejectedEnv scenarioStore "vod-1").store =
      (UploadVideo asciiTable scenarioEnv scenarioStore "vod-1").store ∧
    (UploadVideo asciiTable enhancementsRejectedEnv scenarioStore "vod-1").calls.filter
      Call.isPlaylistAdd =
      [Call.playlistItemsInsert "yt123" "PL1", Call.playlistItemsInsert "yt123" "PL2"] ∧
    ((UploadVideo asciiTable enhancementsRejectedEnv scenarioStore "vod-1").logs.filter
      (fun l => l.level == "warn")).map (fun l => l.msg) =
      ["failed to add chapters", "failed to add video to playlist",
        "failed to add video to playlist"] :=
  have h := UploadVideo_enhancements_irrelevant asciiTable scenarioEnv scenarioStore "vod-1"
    "yt123" (some "forbidden") (fun _ => some "playlistForbidden") rfl (by decide)
  ⟨h.1, h.2.1, rfl, by decide⟩


/-! ## Description fallback, callbacks, sequential substitution, empty types -/

theorem yearText_length (year : Int) (h0 : 0 ≤ year) (h1 : year ≤ 9999) :
    (yearText year).length = 4 := by
  have hlen : (decimal year.natAbs).length ≤ 4 :=
    Nat.repr_length year.natAbs 4 (by decide) (by omega)
  have hneg : ¬ year < 0 := by omega
  unfold yearText
  rw [if_neg hneg, String.length_append, String.length_append]
  have he : "".length = 0 := rfl
  have hr : (String.mk (List.replicate (4 - (decimal year.natAbs).length) '0')).length =
      4 - (decimal year.natAbs).length := by
    show (List.replicate (4 - (decimal year.natAbs).length) '0').length = _
    exact List.length_replicate _ _
  rw [he, hr]
  omega

/-- C21: with an empty description template `formatDescription` returns exactly
`"Streamed by "`, the channel display name, `" on "` and the long date of the
stream: the month name, the day, a comma and the year, which has four digits
(for the years 0 to 9999); the video title and duration do not influence the
result. -/
theorem formatDescription_empty_template (config : YoutubeConfig) (vod : Vod)
    (h : config.DescriptionTemplate = "") :
    formatDescription config vod =
      "Streamed by " ++ vod.Channel.DisplayName ++ " on " ++
        (monthName vod.StreamedAt.Month ++ " " ++ decimal vod.StreamedAt.Day ++ ", " ++
          yearText vod.StreamedAt.Year) ∧
    (0 ≤ vod.StreamedAt.Year → vod.StreamedAt.Year ≤ 9999 →
      (yearText vod.StreamedAt.Year).length = 4) ∧
    (∀ (title : String) (duration : Int),
      formatDescription config { vod with Title := title, Duration := duration } =
        formatDescription config vod) := by
  have key : ∀ v : Vod, formatDescription config v =
      "Streamed by " ++ v.Channel.DisplayName ++ " on " ++
        (monthName v.StreamedAt.Month ++ " " ++ decimal v.StreamedAt.Day ++ ", " ++
          yearText v.StreamedAt.Year) := by
    intro v
    unfold formatDescription
    rw [if_pos h, v.StreamedAt.long]
    rfl
  refine ⟨key vod, yearText_length _, ?_⟩
  intro title duration
  rw [key, key]

/-- C21 at a concrete input: the scenario video, streamed by Bob on 9 March
2024, also under another title and duration. -/
theorem formatDescription_empty_template_witness :
    scenarioConfig.DescriptionTemplate = "" ∧
    (scenarioVod.StreamedAt.Year, scenarioVod.StreamedAt.Month, scenarioVod.StreamedAt.Day) =
      (2024, 3, 9) ∧
    formatDescription scenarioConfig scenarioVod = "Streamed by Bob on March 9, 2024" ∧
    (yearText scenarioVod.StreamedAt.Year).length = 4 ∧
    formatDescription scenarioConfig durationTitleVod = "Streamed by Bob on March 9, 2024" :=
  have h := formatDescription_empty_template scenarioConfig scenarioVod rfl
  ⟨rfl, rfl, h.1.trans (by decide), h.2.1 (by decide) (by decide),
    (h.2.2 "\x7bduration\x7d of fun" 125).trans (by decide)⟩

/-- C22 (evaluation of the code): with all callbacks set, a run that cannot open
the file and a run that cannot stat it return an error without any callback
invocation, `OnError` included; a run whose upload call fails invokes `OnError`
once, and a run that succeeds invokes `OnComplete` once. -/
theorem ResumableUpload.Upload_open_failure_silent :
    scenarioUpload.OnComplete = true ∧ scenarioUpload.OnError = true ∧
    scenarioUpload.Upload { scenarioTransfer with openFile := some "no such file or directory" } =
      (some "failed to open file: no such file or directory", []) ∧
    scenarioUpload.Upload { scenarioTransfer with stat := .error "input/output error" } =
      (some "failed to get file info: input/output error", []) ∧
    (scenarioUpload.Upload { scenarioTransfer with callDo := .error "quotaExceeded" }).1 =
      some "upload failed: quotaExceeded" ∧
    (scenarioUpload.Upload { scenarioTransfer with callDo := .error "quotaExceeded" }).2.filter
      CallbackEvent.isOutcome = [CallbackEvent.error "quotaExceeded"] ∧
    (scenarioUpload.Upload scenarioTransfer).1 = none ∧
    (scenarioUpload.Upload scenarioTransfer).2.filter CallbackEvent.isOutcome =
      [CallbackEvent.complete "yt123"] := by
  refine ⟨rfl, rfl, ?_, ?_, ?_, ?_, ?_, ?_⟩ <;> decide

/-- C23: template substitution is sequential. With the title template
`"{title}"`, the video title `"{channel}"` and the channel name `"Bob"`, `formatTitle`
returns `"Bob"` and not `"{channel}"`; and `formatDescription` rewrites a
`"{duration}"` that stands in the video title. -/
theorem formatTitle_sequential :
    channelTitleVod.Title = "\x7bchannel\x7d" ∧ channelTitleVod.Channel.DisplayName = "Bob" ∧
    formatTitle { scenarioConfig with TitleTemplate := "\x7btitle\x7d" } channelTitleVod = "Bob" ∧
    formatTitle { scenarioConfig with TitleTemplate := "\x7btitle\x7d" } channelTitleVod ≠
      "\x7bchannel\x7d" ∧
    durationTitleVod.Title = "\x7bduration\x7d of fun" ∧
    formatDescription { scenarioConfig with DescriptionTemplate := "\x7btitle\x7d" }
      durationTitleVod = "2m 5s of fun" := by
  refine ⟨rfl, rfl, ?_, ?_, rfl, ?_⟩ <;> decide

theorem matchPlaylists_of_no_categories (u : CaseTable) (config : YoutubeConfig) (vod : Vod)
    (h : getCategoriesFromChapters vod.Chapters = []) : matchPlaylists u config vod = [] := by
  rw [matchPlaylists_eq, h]
  simp [mappingMatches]

/-- C24: chapters with an empty type contribute no category. A string is in
`getCategoriesFromChapters chapters` exactly when it is non-empty and the type of
some chapter; so a video whose chapters all have empty types has no categories
and `matchPlaylists` returns no playlist id for it, whatever the mappings. -/
theorem getCategoriesFromChapters_mem (u : CaseTable) (config : YoutubeConfig) (vod : Vod)
    (x : String) :
    (x ∈ getCategoriesFromChapters vod.Chapters ↔
      x ≠ "" ∧ ∃ ch ∈ vod.Chapters, ch.Type_ = x) ∧
    ((∀ ch ∈ vod.Chapters, ch.Type_ = "") →
      getCategoriesFromChapters vod.Chapters = [] ∧ matchPlaylists u config vod = []) := by
  have inv := getCategoriesFromChapters.foldl_inv vod.Chapters
  have hmem : ∀ y, y ∈ getCategoriesFromChapters vod.Chapters ↔
      y ≠ "" ∧ ∃ ch ∈ vod.Chapters, ch.Type_ = y := by
    intro y
    constructor
    · intro hy
      obtain ⟨hne, hty⟩ := inv.sound y hy
      obtain ⟨ch, hch, he⟩ := List.mem_map.mp hty
      exact ⟨hne, ch, hch, he⟩
    · rintro ⟨hne, ch, hch, he⟩
      exact inv.complete y (List.mem_map.mpr ⟨ch, hch, he⟩) hne
  refine ⟨hmem x, ?_⟩
  intro hall
  have hnil : getCategoriesFromChapters vod.Chapters = [] := by
    apply List.eq_nil_iff_forall_not_mem.mpr
    intro y hy
    obtain ⟨hne, ch, hch, he⟩ := (hmem y).mp hy
    exact hne (he ▸ hall ch hch)
  exact ⟨hnil, matchPlaylists_of_no_categories u config vod hnil⟩

/-- C24 at a concrete input: two chapters without a type and the lone pattern
`"*"`, which matches every category of the scenario video, route nowhere. -/
theorem getCategoriesFromChapters_mem_witness :
    (∀ ch ∈ untypedChaptersVod.Chapters, ch.Type_ = "") ∧
    getCategoriesFromChapters untypedChaptersVod.Chapters = [] ∧
    matchPlaylists asciiTable (configWith [⟨"*", "PLall", "", 0⟩]) untypedChaptersVod = [] ∧
    matchPlaylists asciiTable (configWith [⟨"*", "PLall", "", 0⟩]) scenarioVod = ["PLall"] :=
  have hall : ∀ ch ∈ untypedChaptersVod.Chapters, ch.Type_ = "" := by
    intro ch hch
    simp only [untypedChaptersVod, List.mem_cons, List.mem_singleton, List.not_mem_nil,
      or_false] at hch
    rcases hch with rfl | rfl <;> rfl
  have h := (getCategoriesFromChapters_mem asciiTable (configWith [⟨"*", "PLall", "", 0⟩])
    untypedChaptersVod "").2 hall
  ⟨hall, h.1, h.2, by decide⟩


/-! ## The error message over runs in sequence -/

/-- The transfer part leaves the database as it was or rewrites the record of the
video, either as `failed` or with the error message it had. -/
theorem UploadVideo.transfer_store (u : CaseTable) (env : Env) (σ : Store)
    (vodUUID : String) (vod : Vod) (config : YoutubeConfig) (r : YoutubeUpload) :
    (UploadVideo.transfer u env σ vodUUID vod config r).store = σ ∨
    ∃ x : YoutubeUpload,
      (UploadVideo.transfer u env σ vodUUID vod config r).store = σ.setUpload vodUUID x ∧
      (x.Status = "failed" ∨ x.ErrorMessage = r.ErrorMessage) := by
  unfold UploadVideo.transfer
  cases env.openFile with
  | some e =>
    simp only
    cases env.saveFailed with
    | some e2 => exact Or.inl rfl
    | none => exact Or.inr ⟨_, rfl, Or.inl rfl⟩
  | none =>
    simp only
    cases env.videosInsert with
    | error e =>
      simp only
      cases env.saveFailed with
      | some e2 => exact Or.inl rfl
      | none => exact Or.inr ⟨_, rfl, Or.inl rfl⟩
    | ok V =>
      simp only [Outcome.after_store]
      unfold UploadVideo.finish
      cases env.saveCompleted with
      | some e2 => exact Or.inl rfl
      | none => exact Or.inr ⟨_, rfl, Or.inr rfl⟩

theorem UploadVideo.run_message (u : CaseTable) (env : Env) (σ0 : Store)
    (vodUUID : String) (vod : Vod) (config : YoutubeConfig) (r0 : YoutubeUpload)
    (k : String) (r1 : YoutubeUpload)
    (h : (UploadVideo.run u env σ0 vodUUID vod config r0).store.uploads k = some r1) :
    r1.Status = "failed" ∨ (k = vodUUID ∧ r1.ErrorMessage = r0.ErrorMessage) ∨
      σ0.uploads k = some r1 := by
  unfold UploadVideo.run at h
  cases hsu : env.saveUploading with
  | some e =>
    simp only [hsu] at h
    exact Or.inr (Or.inr h)
  | none =>
    simp only [hsu] at h
    have hup := getYouTubeClient_uploads env
      (σ0.setUpload vodUUID { r0 with Status := "uploading", UpdatedAt := env.now })
    rcases hgc : getYouTubeClient env
      (σ0.setUpload vodUUID { r0 with Status := "uploading", UpdatedAt := env.now })
      with ⟨res, σ2, cs⟩
    rw [hgc] at h hup
    simp only at hup
    have hσ2 : ∀ x : YoutubeUpload, σ2.uploads k = some x →
        (k = vodUUID ∧ x.ErrorMessage = r0.ErrorMessage) ∨ σ0.uploads k = some x := by
      intro x hx
      rw [hup] at hx
      by_cases hk : k = vodUUID
      · left
        simp only [Store.setUpload, hk, if_true] at hx
        injection hx with hx
        exact ⟨hk, by rw [← hx]⟩
      · right
        simpa [Store.setUpload, hk] using hx
    have hset : ∀ (x y : YoutubeUpload), (σ2.setUpload vodUUID x).uploads k = some y →
        (x.Status = "failed" ∨ x.ErrorMessage = r0.ErrorMessage) →
        y.Status = "failed" ∨ (k = vodUUID ∧ y.ErrorMessage = r0.ErrorMessage) ∨
          σ0.uploads k = some y := by
      intro x y hy hx
      by_cases hk : k = vodUUID
      · simp only [Store.setUpload, hk, if_true] at hy
        injection hy with hy
        subst hy
        rcases hx with hx | hx
        · exact Or.inl hx
        · exact Or.inr (Or.inl ⟨hk, hx⟩)
      · have hy2 : σ2.uploads k = some y := by simpa [Store.setUpload, hk] using hy
        exact Or.inr (hσ2 y hy2)
    cases res with
    | error e =>
      simp only at h
      cases hsf : env.saveFailed with
      | some e2 =>
        simp only [hsf] at h
        exact Or.inr (hσ2 r1 h)
      | none =>
        simp only [hsf] at h
        exact hset _ r1 h (Or.inl rfl)
    | ok tok =>
      simp only [Outcome.after_store] at h
      rcases UploadVideo.transfer_store u env σ2 vodUUID vod config
        { r0 with Status := "uploading", UpdatedAt := env.now } with hs | ⟨x, hs, hx⟩
      · rw [hs] at h
        exact Or.inr (hσ2 r1 h)
      · rw [hs] at h
        exact hset x r1 h hx

/-- What a run can do to the error message of an upload record: the record after
the run is `failed` (its message was written by this run), or its message is
empty, or it is the message the record had before the run. -/
theorem UploadVideo_message_step (u : CaseTable) (env : Env) (σ : Store) (vodID k : String)
    (r1 : YoutubeUpload) (h : (UploadVideo u env σ vodID).store.uploads k = some r1) :
    r1.Status = "failed" ∨ r1.ErrorMessage = "" ∨
      ∃ r, σ.uploads k = some r ∧ r.ErrorMessage = r1.ErrorMessage := by
  have hsame : σ.uploads k = some r1 → r1.Status = "failed" ∨ r1.ErrorMessage = "" ∨
      ∃ r, σ.uploads k = some r ∧ r.ErrorMessage = r1.ErrorMessage :=
    fun hs => Or.inr (Or.inr ⟨r1, hs, rfl⟩)
  unfold UploadVideo at h
  rw [Outcome.after_store] at h
  unfold UploadVideo.body at h
  cases hp : env.uuidParse vodID with
  | error e =>
    simp only [hp] at h
    exact hsame h
  | ok vodUUID =>
    simp only [hp] at h
    cases hv : env.queryVod vodUUID with
    | error e =>
      simp only [hv] at h
      exact hsame h
    | ok vod =>
      simp only [hv] at h
      cases hc : env.queryConfig vod with
      | error e =>
        simp only [hc] at h
        exact hsame h
      | ok config =>
        simp only [hc] at h
        by_cases hen : (!config.UploadEnabled) = true
        · rw [if_pos hen] at h
          exact hsame h
        · rw [if_neg hen] at h
          cases hr : σ.uploads vodUUID with
          | some r0 =>
            simp only [hr] at h
            by_cases hst : r0.Status = "completed"
            · rw [if_pos hst] at h
              exact hsame h
            · rw [if_neg hst] at h
              rcases UploadVideo.run_message u env σ vodUUID vod config r0 k r1 h with
                hf | ⟨hk, hm⟩ | hs
              · exact Or.inl hf
              · exact Or.inr (Or.inr ⟨r0, hk ▸ hr, hm.symm⟩)
              · exact hsame hs
          | none =>
            simp only [hr] at h
            cases hcu : env.createUpload with
            | some e =>
              simp only [hcu] at h
              exact hsame h
            | none =>
              simp only [hcu] at h
              rcases UploadVideo.run_message u env _ vodUUID vod config _ k r1 h with
                hf | ⟨_, hm⟩ | hs
              · exact Or.inl hf
              · exact Or.inr (Or.inl hm)
              · by_cases hk : k = vodUUID
                · simp only [Store.setUpload, hk, if_true] at hs
                  injection hs with hs
                  exact Or.inr (Or.inl (by rw [← hs]; rfl))
                · have hs2 : σ.uploads k = some r1 := by
                    simpa [Store.setUpload, hk] using hs
                  exact hsame hs2

theorem MessagesTraced.runs (u : CaseTable) (runs : List (Env × String)) :
    ∀ (σ : Store) (seen : List Store), MessagesTraced σ seen →
      MessagesTraced (UploadVideo.finalStore u σ runs)
        (seen ++ UploadVideo.trajectory u σ runs) := by
  induction runs with
  | nil =>
    intro σ seen h
    simpa [UploadVideo.finalStore, UploadVideo.trajectory] using h
  | cons p rest ih =>
    intro σ seen h
    obtain ⟨env, vodID⟩ := p
    have hstep : MessagesTraced (UploadVideo u env σ vodID).store
        (seen ++ [(UploadVideo u env σ vodID).store]) := by
      intro k r hr hne
      rcases UploadVideo_message_step u env σ vodID k r hr with hf | he | ⟨r0, hr0, hm⟩
      · exact ⟨_, List.mem_append_right _ (List.mem_singleton_self _), r, hr, hf, rfl⟩
      · exact absurd he hne
      · obtain ⟨σf, hσf, rf, h1, h2, h3⟩ := h k r0 hr0 (by rw [hm]; exact hne)
        exact ⟨σf, List.mem_append_left _ hσf, rf, h1, h2, h3.trans hm⟩
    have := ih (UploadVideo u env σ vodID).store _ hstep
    simpa [UploadVideo.finalStore, UploadVideo.trajectory, List.append_assoc] using this

end Ganymede
